import Mathlib

/-!
Verification of the payment-routing core of ZmnSCPxj/lightning against its
specification.  The development shallowly embeds the relevant C sources:

* `Dhcache`       : gossipd/dhcache.h, the dhcache implementation file, and
                    gossipd/dhcache_refresher.c (the Dijkstra loop step);
* `Permuteroute`  : the permuteroute plugin (prc_splice / prc_complete);
* `Txaccelerate`  : the txaccelerate plugin (json_txaccelerate / acc_loop /
                    txaccelerate_execute_err);
* `Pathdiversity` : plugins/libplugin-pathdiversity.c (exclusion expansion,
                    route cache, getroute tree traversal);
* `Mfc`           : the multifundchannel plugin (cleanup, pipeline, txsend).

Machine integers are modelled as `Nat` with the explicit masks of the source
where bit layout matters.  Asynchronous continuation-passing pipelines are
modelled as sequential functions from an environment of RPC results to a
trace of emitted events; each trace item carries the snapshot of relevant
state at the moment of emission.  Definitions come first, theorems follow.
-/

/-! ## Dhcache: gossipd/dhcache.h and its implementation -/

namespace Dhcache

/-- DHCACHE_DISTANCE_MASK from gossipd/dhcache.h. -/
def DISTANCE_MASK : Nat := 0x7FFFFFFF

/-- DHCACHE_VISITED_MASK from gossipd/dhcache.h. -/
def VISITED_MASK : Nat := 0x80000000

/-- DHCACHE_MAXIMUM_DISTANCE from gossipd/dhcache.h. -/
def MAXIMUM_DISTANCE : Nat := 0x7FFFFFFF

/-- DHCACHE_NEWNODE_VALUE from gossipd/dhcache.h. -/
def NEWNODE_VALUE : Nat := 0xFFFFFFFF

/-- DHCACHE_START_PREPROCESSING_VALUE from gossipd/dhcache.h. -/
def START_PREPROCESSING_VALUE : Nat := 0x7FFFFFFF

/-- struct dhcache: a writer-selector bit and an availability flag.  The C
uses u8 fields accessed only through `!`/`!!`, so `Bool` is faithful. -/
structure Dhc where
  writer_selector : Bool
  available : Bool
deriving DecidableEq

/-- dhcache_new. -/
def dhcache_new : Dhc := ⟨false, false⟩

/-- dhcache_available. -/
def dhcache_available (d : Dhc) : Bool := d.available

/-- dhcache_flip: toggle the writer selector and set available. -/
def dhcache_flip (d : Dhc) : Dhc := ⟨!d.writer_selector, true⟩

/-- The node's dhcache_distance[2] field: (slot 0, slot 1), each a u32. -/
abbrev Slots := Nat × Nat

/-- Read one of the two slots, selected by a boolean index. -/
def slotGet (s : Slots) (sel : Bool) : Nat := if sel then s.2 else s.1

/-- Write one of the two slots, selected by a boolean index. -/
def slotSet (s : Slots) (sel : Bool) (v : Nat) : Slots :=
  if sel then (s.1, v) else (v, s.2)

/-- The world a dhcache lives in: the cache object, the set of node ids known
to the routing state, and each node's dhcache_distance pair. -/
structure World where
  dh : Dhc
  nodes : List Nat
  dist : Nat → Slots

/-- struct dhcache_reader: captured slot selector plus the goal's landmark
distance. -/
structure Reader where
  selector : Bool
  distance_goal : Nat
deriving DecidableEq

/-- dhcache_reader_init: capture the slot opposite the writer's, and the
goal's distance in that slot. -/
def dhcache_reader_init (w : World) (goal : Nat) : Reader :=
  let selector := !w.dh.writer_selector
  ⟨selector, Nat.land (slotGet (w.dist goal) selector) DISTANCE_MASK⟩

/-- dhcache_reader_is_reachable: the visited bit of the captured slot. -/
def dhcache_reader_is_reachable (r : Reader) (w : World) (n : Nat) : Bool :=
  Nat.land (slotGet (w.dist n) r.selector) VISITED_MASK != 0

/-- dhcache_reader_distance: absolute difference of the node's and the goal's
landmark distances. -/
def dhcache_reader_distance (r : Reader) (w : World) (n : Nat) : Nat :=
  let distance_goal := r.distance_goal
  let distance_node := Nat.land (slotGet (w.dist n) r.selector) DISTANCE_MASK
  if distance_node > distance_goal then distance_node - distance_goal
  else distance_goal - distance_node

/-- Update one node's writer slot through a function on the stored u32.
The writer slot index is the current writer selector, exactly as captured by
dhcache_writer_init. -/
def updateNode (w : World) (n : Nat) (f : Nat → Nat) : World :=
  { w with dist := fun m =>
      let sel := w.dh.writer_selector
      if m = n then slotSet (w.dist m) sel (f (slotGet (w.dist m) sel))
      else w.dist m }

/-- dhcache_writer_set_distance: keep the visited bit, store the masked
distance. -/
def dhcache_writer_set_distance (w : World) (n : Nat) (d : Nat) : World :=
  updateNode w n (fun v => Nat.lor (Nat.land v VISITED_MASK) (Nat.land d DISTANCE_MASK))

/-- dhcache_writer_mark_visited. -/
def dhcache_writer_mark_visited (w : World) (n : Nat) : World :=
  updateNode w n (fun v => Nat.lor v VISITED_MASK)

/-- dhcache_writer_get_visited. -/
def dhcache_writer_get_visited (w : World) (n : Nat) : Bool :=
  Nat.land (slotGet (w.dist n) w.dh.writer_selector) VISITED_MASK != 0

/-- dhcache_writer_get_distance. -/
def dhcache_writer_get_distance (w : World) (n : Nat) : Nat :=
  Nat.land (slotGet (w.dist n) w.dh.writer_selector) DISTANCE_MASK

/-- dhcache_writer_clear_all_nodes: every known node's writer slot becomes
the start-preprocessing value. -/
def dhcache_writer_clear_all_nodes (w : World) : World :=
  { w with dist := fun m =>
      if w.nodes.contains m then
        slotSet (w.dist m) w.dh.writer_selector START_PREPROCESSING_VALUE
      else w.dist m }

/-- dhcache_flip lifted to the world: only the dhc changes, no slot data. -/
def flipWorld (w : World) : World := { w with dh := dhcache_flip w.dh }

/-- A writer-side operation on the dhcache, as performed by the refresher. -/
inductive WriterOp
  | clear_all
  | set_distance (n d : Nat)
  | mark_visited (n : Nat)
  | flip
deriving DecidableEq

/-- Apply one writer operation. -/
def applyOp (w : World) : WriterOp → World
  | WriterOp.clear_all => dhcache_writer_clear_all_nodes w
  | WriterOp.set_distance n d => dhcache_writer_set_distance w n d
  | WriterOp.mark_visited n => dhcache_writer_mark_visited w n
  | WriterOp.flip => flipWorld w

/-- Apply a sequence of writer operations in order. -/
def applyOps (w : World) (ops : List WriterOp) : World := ops.foldl applyOp w

/-! ### The refresher loop step (gossipd/dhcache_refresher.c) -/

/-- A channel of the routing state: its two endpoint node ids
(channel->nodes[0] and channel->nodes[1]). -/
structure RChan where
  n0 : Nat
  n1 : Nat
deriving DecidableEq

/-- The routing state as seen by the refresher: node ids and channels. -/
structure RState where
  nodes : List Nat
  chans : List RChan
deriving DecidableEq

/-- other_node: the endpoint of the channel that is not the given node. -/
def other_node (n : Nat) (c : RChan) : Nat := if c.n0 = n then c.n1 else c.n0

/-- The channels incident to a node, in routing-state order (first_chan /
next_chan iteration). -/
def node_chans (rs : RState) (n : Nat) : List RChan :=
  rs.chans.filter (fun c => c.n0 = n || c.n1 = n)

/-- Minimum priority currently in the queue (none when empty). -/
def pq_min_priority : List (Nat × Nat) → Option Nat
  | [] => none
  | (_, p) :: rest =>
    match pq_min_priority rest with
    | none => some p
    | some q => some (min p q)

/-- Remove the first entry carrying the given priority. -/
def pq_remove_first (p : Nat) : List (Nat × Nat) → List (Nat × Nat)
  | [] => []
  | x :: rest => if x.2 = p then rest else x :: pq_remove_first p rest

/-- priority_queue_get_min: pop an entry of minimal priority.  The binary
heap does not specify which of several minimal entries is returned; this
model returns the first one in insertion order. -/
def priority_queue_get_min (q : List (Nat × Nat)) :
    Option ((Nat × Nat) × List (Nat × Nat)) :=
  match pq_min_priority q with
  | none => none
  | some p =>
    match q.find? (fun x => x.2 = p) with
    | none => none
    | some item => some (item, pq_remove_first p q)

/-- Result of one step of the refresh process. -/
inductive StepResult
  | next
  | failed
  | completed
deriving DecidableEq

/-- struct refresh_process: the queue of (node id, priority) entries and the
writer view of the world, over a routing state. -/
structure RefreshProcess where
  queue : List (Nat × Nat)
  world : World
  rstate : RState

/-- The neighbour-relaxation loop of refresh_process_step_loop: walk the
channels of the popped node, computing each neighbour's tentative distance
and updating the writer slot and pushing the neighbour when it improves.
The coster is an oracle parameter: dhcache_coster_get's body is not part of
the sources, and no claim below depends on the cost values. -/
def relax_chans (cost : Nat → RChan → Nat → Nat) (node : Nat)
    (node_total_cost : Nat) :
    List RChan → World × List (Nat × Nat) → World × List (Nat × Nat)
  | [], acc => acc
  | c :: rest, (w, pushes) =>
    let neighbor := other_node node c
    let cost_num := cost node c neighbor
    let ntc0 := node_total_cost + cost_num
    let neighbor_total_cost := if ntc0 > MAXIMUM_DISTANCE then MAXIMUM_DISTANCE else ntc0
    if !dhcache_writer_get_visited w neighbor
       || dhcache_writer_get_distance w neighbor > neighbor_total_cost then
      let w1 := dhcache_writer_mark_visited w neighbor
      let w2 := dhcache_writer_set_distance w1 neighbor neighbor_total_cost
      relax_chans cost node node_total_cost rest
        (w2, pushes ++ [(neighbor, neighbor_total_cost)])
    else
      relax_chans cost node node_total_cost rest (w, pushes)

/-- refresh_process_step_loop: pop the minimum entry; empty queue completes;
a node that disappeared from the routing state is skipped; otherwise the
node's neighbours are relaxed from its current writer-slot distance. -/
def refresh_process_step_loop (cost : Nat → RChan → Nat → Nat)
    (proc : RefreshProcess) : StepResult × RefreshProcess :=
  match priority_queue_get_min proc.queue with
  | none => (StepResult.completed, proc)
  | some (item, q') =>
    if proc.rstate.nodes.contains item.1 then
      let node_total_cost := dhcache_writer_get_distance proc.world item.1
      let res := relax_chans cost item.1 node_total_cost
        (node_chans proc.rstate item.1) (proc.world, [])
      (StepResult.next, { proc with queue := q' ++ res.2, world := res.1 })
    else
      (StepResult.next, { proc with queue := q' })

end Dhcache

/-! ## Permuteroute: the two-hop splice (prc_splice / prc_complete) -/

namespace Permuteroute

/-- Route hop styles. -/
inductive Style
  | tlv
  | legacy
deriving DecidableEq, Inhabited

/-- A route hop as parsed from / emitted to JSON. -/
structure RouteHop where
  channel_id : Nat
  direction : Nat
  nodeid : Nat
  amount : Nat
  delay : Nat
  style : Style
deriving DecidableEq, Inhabited

/-- struct permuteroute_channel_data, one listchannels half-channel. -/
structure ChannelData where
  source : Nat
  destination : Nat
  scid : Nat
  direction : Nat
  active : Bool
  base_fee : Nat
  fee_per_millionth : Nat
  delay : Nat
  htlc_minimum_msat : Nat
  htlc_maximum_msat : Nat
deriving DecidableEq

/-- Modelled from the spec: `add_fee` (the sources call amount_msat_add_fee,
whose definition lives in common/amount.c which is not among the source
files).  It adds the BOLT forwarding fee, base plus proportional
parts-per-million, to an amount.  The claims proved below hold for any
rounding choice because both the spec formula and the code use the same
function. -/
def add_fee (amount base ppm : Nat) : Nat :=
  amount + (base + amount * ppm / 1000000)

/-- The fields of struct permuteroute_command needed by the splice. -/
structure PRC where
  route : List RouteHop
  source_index : Nat
  dest_index : Nat
  dest_amount : Nat
  dest_delay : Nat
  dest_style : Style
deriving DecidableEq

/-- prc_splice (plus the style fill-in of prc_get_listnodes_features):
build the two-hop splice [h1, h2] and the prefix arrival amount/delay.
`intermediate_var_onion` is whether listnodes reported OPT_VAR_ONION for the
intermediate node. -/
def prc_splice (prc : PRC) (hop1 hop2 : ChannelData)
    (intermediate_var_onion : Bool) : List RouteHop × Nat × Nat :=
  let h2 : RouteHop :=
    ⟨hop2.scid, hop2.direction, hop2.destination,
     prc.dest_amount, prc.dest_delay, prc.dest_style⟩
  let h1_amount := add_fee prc.dest_amount hop2.base_fee hop2.fee_per_millionth
  let h1_delay := prc.dest_delay + hop2.delay
  let h1_style := if intermediate_var_onion then Style.tlv else Style.legacy
  let h1 : RouteHop :=
    ⟨hop1.scid, hop1.direction, hop1.destination, h1_amount, h1_delay, h1_style⟩
  let prefix_amount := add_fee h1_amount hop1.base_fee hop1.fee_per_millionth
  let prefix_delay := h1_delay + hop1.delay
  ([h1, h2], prefix_amount, prefix_delay)

/-- The prefix-adjustment loop of prc_complete.  The C loop runs i upward
over positions counted from the END of the prefix, adding the current
amount_delta and then incrementing amount_delta by one; hence the hop at
distance k from the end receives amount_delta + k, which for the hop at
position j from the front is amount_delta + (length - 1 - j); written
recursively, the head's extra is the length of its tail. -/
def adjust (amount_delta delay_delta : Nat) : List RouteHop → List RouteHop
  | [] => []
  | h :: rest =>
    { h with amount := h.amount + amount_delta + rest.length,
             delay := h.delay + delay_delta } :: adjust amount_delta delay_delta rest

/-- prc_complete, restricted to building the copied-and-adjusted prefix
(prc_output then concatenates prefix, splice and the surviving tail).
amount_msat_sub failing in the C clamps the delta at zero, which is `Nat`
subtraction here. -/
def prc_complete_pfx (prc : PRC) (prefix_amount prefix_delay : Nat) :
    List RouteHop :=
  if prc.source_index = 0 then []
  else
    let pfx := prc.route.take prc.source_index
    let amount_last := (pfx.getLastD default).amount
    let delay_last := (pfx.getLastD default).delay
    let amount_delta := prefix_amount - amount_last
    let delay_delta := if prefix_delay > delay_last then prefix_delay - delay_last else 0
    if amount_delta = 0 && delay_delta = 0 then pfx
    else adjust amount_delta delay_delta pfx

/-- prc_output: the emitted route is prefix, splice, then the hops from
dest_index on. -/
def prc_output_route (prc : PRC) (hop1 hop2 : ChannelData)
    (intermediate_var_onion : Bool) : List RouteHop :=
  let res := prc_splice prc hop1 hop2 intermediate_var_onion
  prc_complete_pfx prc res.2.1 res.2.2 ++ res.1 ++ prc.route.drop prc.dest_index

end Permuteroute

/-! ## Txaccelerate: aggression parsing and the acceleration loop -/

namespace Txaccelerate

/-- Modelled from the spec: the numeric error code TXACCELERATE_ID_NOT_FOUND
comes from a header that is not among the source files; only its value being
distinct from other codes matters. -/
def TXACCELERATE_ID_NOT_FOUND : Int := 1001

/-- Modelled from the spec: the numeric error code FUND_CANNOT_AFFORD, as
for TXACCELERATE_ID_NOT_FOUND. -/
def FUND_CANNOT_AFFORD : Int := 301

/-- What txaccelerate_execute_err decides to do with a failed execute. -/
inductive ExecErrDisposition
  | success
  | reestimate
  | forward (code : Int)
deriving DecidableEq

/-- txaccelerate_execute_err: ID_NOT_FOUND means the transaction confirmed,
report success; FUND_CANNOT_AFFORD re-estimates; anything else forwards. -/
def txaccelerate_execute_err (code : Int) : ExecErrDisposition :=
  if code = TXACCELERATE_ID_NOT_FOUND then ExecErrDisposition.success
  else if code = FUND_CANNOT_AFFORD then ExecErrDisposition.reestimate
  else ExecErrDisposition.forward code

/-- The aggression conversion of json_txaccelerate:
acc->aggression = millionths / (1000000.0 / 100.0).  The double arithmetic
is exact at the magnitudes involved, so rationals model it faithfully. -/
def acc_aggression (aggression_millionths : Nat) : ℚ :=
  (aggression_millionths : ℚ) / (1000000 / 100)

/-- The default aggression argument: p_opt_def gives 10 * 1000000
millionths, i.e. the millionths encoding of the number 10 (ten percent). -/
def default_aggression_millionths : Nat := 10 * 1000000

/-- What acc_loop decides to do next. -/
inductive LoopAction
  | wait
  | failNever
  | execute (total_fee : Nat)
deriving DecidableEq

/-- acc_loop: with fresh total_fee/delta_fee/max_fee from the estimator and
the caller's max_acceptable_fee, decide to sleep, fail, or execute with an
aggression-tweaked fee capped at max_fee.  The C computes the tweak in
double and casts to u64 (truncation); at the inputs considered the values
are integers, so rational floor is exact. -/
def acc_loop (total_fee delta_fee max_fee max_acceptable_fee : Nat)
    (aggression : ℚ) (have_accelerated : Bool) : LoopAction :=
  if delta_fee = 0 ∧ total_fee = max_fee then LoopAction.wait
  else if total_fee > max_acceptable_fee then
    (if !have_accelerated then LoopAction.failNever else LoopAction.wait)
  else
    let tweaked : ℚ :=
      ((max_acceptable_fee : ℚ) - (total_fee : ℚ)) * aggression + (total_fee : ℚ)
    let fee : Nat := tweaked.floor.toNat
    LoopAction.execute (if fee > max_fee then max_fee else fee)

end Txaccelerate

/-! ## Pathdiversity: plugins/libplugin-pathdiversity.c -/

namespace Pathdiversity

/-- A half-channel as returned by listchannels: directed source, destination
and short-channel id. -/
structure HalfChan where
  source : Nat
  destination : Nat
  scid : Nat
deriving DecidableEq

/-- A (source, destination) pair banned by a tree edge. -/
abbrev Link := Nat × Nat

/-- A struct pathdiversity_edge, represented by the chain of links from the
edge itself up to the root of its tree (its own link first, then the parent
chain).  The C stores this as a ref-counted parent pointer; children built
with parent `e` carry their own link consed onto `e`'s chain. -/
abbrev Edge := List Link

/-- listchannels with a source filter: the half-channels originating at the
given node. -/
def listchannels_from (g : List HalfChan) (src : Nat) : List HalfChan :=
  g.filter (fun c => c.source = src)

/-- One pathdiversity_exclusion_after_listchannels pass: of the channels
originating at the link's source, keep those going to the link's
destination, and collect their short-channel ids. -/
def exclusions_for_link (g : List HalfChan) (l : Link) : List Nat :=
  ((listchannels_from g l.1).filter (fun c => c.destination = l.2)).map
    (fun c => c.scid)

/-- pathdiversity_get_exclusions: walk the edge up to its root, appending
each link's channel ids in chain order. -/
def pathdiversity_get_exclusions (g : List HalfChan) (e : Option Edge) :
    List Nat :=
  match e with
  | none => []
  | some links => links.foldr (fun l acc => exclusions_for_link g l ++ acc) []

/-- The `%s/0`, `%s/1` expansion of pathdiversity_getroute_got_exclusions:
each excluded channel id is banned in both directions. -/
def exclude_entries (excs : List Nat) : List (Nat × Nat) :=
  excs.foldr (fun s acc => (s, 0) :: (s, 1) :: acc) []

/-- The full exclude array passed to getroute: the payment-level excludes
followed by both directions of every diversity-banned channel. -/
def pathdiversity_getroute_excludes (p_excludes : List (Nat × Nat))
    (g : List HalfChan) (e : Option Edge) : List (Nat × Nat) :=
  p_excludes ++ exclude_entries (pathdiversity_get_exclusions g e)

/-- A hop of a getroute result. -/
structure Hop where
  nodeid : Nat
  scid : Nat
  direction : Nat
  amount : Nat
  delay : Nat
deriving DecidableEq, Inhabited

/-- The payment fields that the pathdiversity getroute replacement reads and
writes. -/
structure Payment where
  local_id : Nat
  amount : Nat
  fee_budget : Nat
  cltv_budget : Nat
  final_cltv : Nat
  excludes : List (Nat × Nat)
deriving DecidableEq

/-- The node-id sequence of a route, which is what the route cache stores
and compares. -/
def nodeids (route : List Hop) : List Nat := route.map (fun h => h.nodeid)

/-- The lookup half of pathdiversity_routecache_lookup_or_insert: true when
a route with the same node-id sequence is already cached. -/
def routecache_member (rc : List (List Nat)) (route : List Hop) : Bool :=
  decide (nodeids route ∈ rc)

/-- The per-destination traversal state: the queue of unexpanded tree edges
and the route cache. -/
structure GrState where
  q : List Edge
  rc : List (List Nat)
deriving DecidableEq

/-- enum pathdiversity_constraint_violation. -/
inductive Violation
  | OK
  | OUT_OF_FEES
  | OUT_OF_TIME
deriving DecidableEq

/-- pathdiversity_check_constraints: fee is hop0.amount minus the delivered
amount; over the fee budget, then over the CLTV budget, else OK.  (The
negative-fee paymod_err is handled by a crash guard at the call site.) -/
def pathdiversity_check_constraints (p : Payment) (route : List Hop) :
    Violation :=
  let hop0 := route.headI
  let fee := hop0.amount - p.amount
  if fee > p.fee_budget then Violation.OUT_OF_FEES
  else if hop0.delay > p.cltv_budget then Violation.OUT_OF_TIME
  else Violation.OK

/-- The fee contributed by hop i of a route: its amount minus the next
hop's amount, the delivered amount after the final hop. -/
def route_fee_at (p : Payment) (route : List Hop) (i : Nat) : Nat :=
  (route.getD i default).amount -
    (if i + 1 < route.length then (route.getD (i + 1) default).amount else p.amount)

/-- The delay contributed by hop i of a route: its delay minus the next
hop's delay, the final CLTV after the final hop. -/
def route_delay_at (p : Payment) (route : List Hop) (i : Nat) : Nat :=
  (route.getD i default).delay -
    (if i + 1 < route.length then (route.getD (i + 1) default).delay else p.final_cltv)

/-- First index below n maximizing f. -/
def argmax_under (f : Nat → Nat) (n : Nat) : Nat :=
  (List.range n).foldl (fun best i => if f i > f best then i else best) 0

/-- Modelled from the spec: payment_exclude_most_expensive lives in the
payment-modifier core, which is not among the source files; per the spec it
adds the most expensive edge of the route to the payment's exclude set. -/
def payment_exclude_most_expensive (p : Payment) (route : List Hop) : Payment :=
  let i := argmax_under (route_fee_at p route) route.length
  let h := route.getD i default
  { p with excludes := p.excludes ++ [(h.scid, h.direction)] }

/-- Modelled from the spec: payment_exclude_longest_delay, as for
payment_exclude_most_expensive but for the edge with the largest delay. -/
def payment_exclude_longest_delay (p : Payment) (route : List Hop) : Payment :=
  let i := argmax_under (route_delay_at p route) route.length
  let h := route.getD i default
  { p with excludes := p.excludes ++ [(h.scid, h.direction)] }

/-- The edges pushed by pathdiversity_getroute_ok: one per hop of the
returned route, the first from the local node to hop 0, then between
consecutive hops, all with the popped edge as parent. -/
def route_edges (local_id : Nat) (route : List Hop) (parent : Option Edge) :
    List Edge :=
  match route with
  | [] => []
  | h0 :: _ =>
    let pchain := parent.getD []
    ((local_id, h0.nodeid) :: pchain) ::
      (route.zip route.tail).map (fun ab => (ab.1.nodeid, ab.2.nodeid) :: pchain)

/-- Events observable from the getroute replacement. -/
inductive GrEvent
  | cacheClear
  | queueCleared
  | returned (route : List Hop)
  | failedPay
deriving DecidableEq

/-- The outcome of one iteration of the traversal. -/
inductive IterResult
  | next (st : GrState)
  | gotRoute (route : List Hop) (st : GrState)
  | failedPayment (p : Payment) (st : GrState)
  | crash
deriving DecidableEq

/-- One iteration of the getroute replacement: pathdiversity_getroute_step
(pop, clearing the route cache when the pop finds the queue empty), the
exclusion expansion, the underlying getroute call (the oracle), then
pathdiversity_getroute_ok / pathdiversity_getroute_fail: route-cache
dedup, pushing child edges, constraint checking with the budget-repair
hints at the root and queue-clear-and-retry below it. -/
def pd_iter (g : List HalfChan) (oracle : List (Nat × Nat) → Option (List Hop))
    (p : Payment) (st : GrState) : List GrEvent × IterResult :=
  let e : Option Edge := st.q.head?
  let q1 : List Edge := st.q.tail
  let clearEvs : List GrEvent := if st.q.isEmpty then [GrEvent.cacheClear] else []
  let rc1 : List (List Nat) := if st.q.isEmpty then [] else st.rc
  let st1 : GrState := ⟨q1, rc1⟩
  match oracle (pathdiversity_getroute_excludes p.excludes g e) with
  | none =>
    match e with
    | none => (clearEvs, IterResult.failedPayment p st1)
    | some _ => (clearEvs, IterResult.next st1)
  | some route =>
    if route.isEmpty then (clearEvs, IterResult.crash)
    else if routecache_member st1.rc route then (clearEvs, IterResult.next st1)
    else
      let rc2 := st1.rc ++ [nodeids route]
      let st2 : GrState := ⟨st1.q ++ route_edges p.local_id route e, rc2⟩
      if route.headI.amount < p.amount then (clearEvs, IterResult.crash)
      else
        match pathdiversity_check_constraints p route with
        | Violation.OK => (clearEvs, IterResult.gotRoute route st2)
        | Violation.OUT_OF_FEES =>
          match e with
          | none =>
            (clearEvs,
             IterResult.failedPayment (payment_exclude_most_expensive p route) st2)
          | some _ =>
            (clearEvs ++ [GrEvent.queueCleared], IterResult.next ⟨[], st2.rc⟩)
        | Violation.OUT_OF_TIME =>
          match e with
          | none =>
            (clearEvs,
             IterResult.failedPayment (payment_exclude_longest_delay p route) st2)
          | some _ =>
            (clearEvs ++ [GrEvent.queueCleared], IterResult.next ⟨[], st2.rc⟩)

/-- The per-destination serializer: requests run one at a time in FIFO
order; a `next` outcome continues the same request with the next edge, a
route or a payment failure completes the request and starts the next
queued payment.  The fuel bounds the number of iterations. -/
def pd_run (g : List HalfChan) (oracle : List (Nat × Nat) → Option (List Hop)) :
    Nat → List Payment → GrState → List GrEvent
  | 0, _, _ => []
  | _ + 1, [], _ => []
  | fuel + 1, p :: ps, st =>
    match pd_iter g oracle p st with
    | (evs, IterResult.next st') => evs ++ pd_run g oracle fuel (p :: ps) st'
    | (evs, IterResult.gotRoute r st') =>
      evs ++ GrEvent.returned r :: pd_run g oracle fuel ps st'
    | (evs, IterResult.failedPayment _ st') =>
      evs ++ GrEvent.failedPay :: pd_run g oracle fuel ps st'
    | (evs, IterResult.crash) => evs

/-- The state carried by an iteration outcome, when there is one. -/
def iter_state : IterResult → Option GrState
  | IterResult.next st => some st
  | IterResult.gotRoute _ st => some st
  | IterResult.failedPayment _ st => some st
  | IterResult.crash => none

/-- The no-duplicate property of an event trace: walking the trace with the
set of node-id sequences returned since the last cache clear, every
returned route must be new, and a cache clear resets the set. -/
def okFrom (seen : List (List Nat)) : List GrEvent → Prop
  | [] => True
  | GrEvent.returned r :: rest =>
    nodeids r ∉ seen ∧ okFrom (seen ++ [nodeids r]) rest
  | GrEvent.cacheClear :: rest => okFrom [] rest
  | GrEvent.queueCleared :: rest => okFrom seen rest
  | GrEvent.failedPay :: rest => okFrom seen rest

end Pathdiversity

/-! ## Mfc: the multifundchannel plugin

The asynchronous continuation-passing pipeline is embedded as a sequential
function from an environment of RPC results to a trace of emitted events.
Each trace item carries a snapshot of the per-destination states and the
currently reserved txid at the moment of emission.  Sparked per-destination
sub-requests touch only their own destination and synchronise at the
spark-wait barrier, so mapping the per-destination result over the
destination array is a faithful sequentialization. -/

namespace Mfc

/-- enum multifundchannel_start. -/
inductive StartState
  | not_yet
  | started
  | start_failed
  | complete_failed
  | done
deriving DecidableEq

/-- struct multifundchannel_destination (the fields the pipeline uses).
`large_channels` is the result of feature_negotiated with
OPT_LARGE_CHANNELS on this peer's features. -/
structure Dest where
  id : Nat
  large_channels : Bool
  all : Bool
  amount : Nat
  fundchannel_start_state : StartState
  funding_script : Option Nat
  outnum : Option Nat
  channel_id : Option Nat
  err : Option Nat
deriving DecidableEq

/-- struct multifundchannel_command (the fields the pipeline mutates). -/
structure MfcState where
  dests : List Dest
  txid : Option Nat
deriving DecidableEq

/-- The observable state carried by every emitted event: the id and state of
each destination, and the reserved txid. -/
structure Snap where
  dests : List (Nat × StartState)
  txid : Option Nat
deriving DecidableEq

/-- Take a snapshot of the command state. -/
def snap (m : MfcState) : Snap :=
  ⟨m.dests.map (fun d => (d.id, d.fundchannel_start_state)), m.txid⟩

/-- The events the pipeline emits, in order. -/
inductive Ev
  | connectReq
  | txprepareReq (dryrun : Bool)
  | txdiscardReq (txid : Nat)
  | fundchannelStartReq (id : Nat)
  | fundchannelCompleteReq (id : Nat)
  | txsendReq (txid : Option Nat)
  | cleanupTxdiscard (txid : Nat)
  | cleanupCancel (id : Nat)
  | replyErr (e : Nat)
  | replyOk (tx : Nat) (txid : Nat) (channel_ids : List Nat)
  | crash
deriving DecidableEq

/-- An emitted event together with the state snapshot at emission. -/
abbrev Item := Ev × Snap

/-- The trace of a command execution. -/
abbrev Trace := List Item

/-- Emit an event under the given state. -/
def emit (m : MfcState) (e : Ev) : Item := (e, snap m)

/-- mfc_cleanup_: a txdiscard for the reserved txid when one is held, and a
fundchannel_cancel for exactly the destinations whose state is `started`. -/
def mfc_cleanup (m : MfcState) : List Ev :=
  (match m.txid with
   | some t => [Ev.cleanupTxdiscard t]
   | none => []) ++
  (m.dests.filter
      (fun d => d.fundchannel_start_state = StartState.started)).map
    (fun d => Ev.cleanupCancel d.id)

/-- mfc_fail / mfc_err_raw / mfc_forward_error: run cleanup, then deliver
the error reply. -/
def mfc_fail (m : MfcState) (e : Nat) : Trace :=
  (mfc_cleanup m).map (emit m) ++ [emit m (Ev.replyErr e)]

/-- mfc_finished: run cleanup, then deliver the success reply carrying the
tx, the txid and the per-destination channel ids. -/
def mfc_finished (m : MfcState) (tx txid : Nat) : Trace :=
  (mfc_cleanup m).map (emit m) ++
    [emit m (Ev.replyOk tx txid (m.dests.map (fun d => d.channel_id.getD 0)))]

/-- The result of the dry-run txprepare: its txid and its outputs as
(address, satoshi value) pairs. -/
structure DryResult where
  txid : Nat
  outputs : List (Nat × Nat)
deriving DecidableEq

/-- The result of the real txprepare: its txid and the scriptpubkey of each
output, indexed by output number. -/
structure Tx2Result where
  txid : Nat
  outputs : List Nat
deriving DecidableEq

/-- The environment of RPC results an execution runs against. -/
structure Env where
  connect : Except Nat (List Bool)
  dryrun : Except Nat DryResult
  fundchannel_start : Nat → Except Nat Nat
  txdiscard_err : Option Nat
  txprepare2 : Except Nat Tx2Result
  fundchannel_complete : Nat → Except Nat Nat
  txsend : Except Nat (Nat × Nat)

/-- JSONRPC2_INVALID_PARAMS, as an error marker. -/
def JSONRPC2_INVALID_PARAMS : Nat := 32602

/-- after_txsend: record the broadcast tx and finish. -/
def after_txsend (m : MfcState) (r : Nat × Nat) : Trace :=
  mfc_finished m r.1 r.2

/-- perform_txsend: mark every destination done, steal the txid (so a later
cleanup will not discard it), then issue txsend; failure forwards the error
(through cleanup), success finishes. -/
def perform_txsend (env : Env) (m : MfcState) : Trace :=
  let dests1 :=
    m.dests.map (fun d => { d with fundchannel_start_state := StartState.done })
  let m1 : MfcState := { m with dests := dests1 }
  let txid := m1.txid
  let m2 : MfcState := { m1 with txid := none }
  emit m2 (Ev.txsendReq txid) ::
    (match env.txsend with
     | Except.error e => mfc_fail m2 e
     | Except.ok r => after_txsend m2 r)

/-- after_fundchannel_complete: the first destination whose
fundchannel_complete failed aborts the command; otherwise broadcast. -/
def after_fundchannel_complete (env : Env) (m : MfcState) : Trace :=
  match m.dests.find?
      (fun d => d.fundchannel_start_state = StartState.complete_failed) with
  | some d => mfc_fail m (d.err.getD 0)
  | none => perform_txsend env m

/-- The per-destination fundchannel_complete spark: success records the
channel id, failure records the error and moves to complete_failed. -/
def fundchannel_complete_result (env : Env) (d : Dest) : Dest :=
  match env.fundchannel_complete d.id with
  | Except.ok cid => { d with channel_id := some cid }
  | Except.error e =>
    { d with fundchannel_start_state := StartState.complete_failed,
             err := some e }

/-- perform_fundchannel_complete: spark fundchannel_complete for every
destination, wait for all, then proceed. -/
def perform_fundchannel_complete (env : Env) (m : MfcState) : Trace :=
  m.dests.map (fun d => emit m (Ev.fundchannelCompleteReq d.id)) ++
    after_fundchannel_complete env
      { m with dests := m.dests.map (fundchannel_complete_result env) }

/-- The output-matching loop of after_txprepare: each destination's outnum
is the first output whose scriptpubkey equals its funding script; a missing
output is a plugin_err (crash). -/
def assign_outnums (outputs : List Nat) : List Dest → Option (List Dest)
  | [] => some []
  | d :: rest =>
    match outputs.findIdx? (fun s => d.funding_script = some s) with
    | none => none
    | some o =>
      match assign_outnums outputs rest with
      | none => none
      | some rest' => some ({ d with outnum := some o } :: rest')

/-- after_txprepare: match destinations to outputs, then collect the
commitment signatures. -/
def after_txprepare (env : Env) (m : MfcState) (res : Tx2Result) : Trace :=
  match assign_outnums res.outputs m.dests with
  | none => [emit m Ev.crash]
  | some dests2 => perform_fundchannel_complete env { m with dests := dests2 }

/-- perform_txprepare: the real funding-tx txprepare; its txid becomes the
reserved txid. -/
def perform_txprepare (env : Env) (m : MfcState) : Trace :=
  emit m (Ev.txprepareReq false) ::
    (match env.txprepare2 with
     | Except.error e => mfc_fail m e
     | Except.ok res => after_txprepare env { m with txid := some res.txid } res)

/-- perform_txmodify: steal the dry-run txid and txdiscard it; a discard
failure forwards the error, success re-prepares with the real outputs. -/
def perform_txmodify (env : Env) (m : MfcState) : Trace :=
  let txid := m.txid
  let m1 : MfcState := { m with txid := none }
  emit m1 (Ev.txdiscardReq (txid.getD 0)) ::
    (match env.txdiscard_err with
     | some e => mfc_fail m1 e
     | none => perform_txprepare env m1)

/-- after_fundchannel_start: the first destination whose fundchannel_start
failed aborts the command; otherwise modify the transaction. -/
def after_fundchannel_start (env : Env) (m : MfcState) : Trace :=
  match m.dests.find?
      (fun d => d.fundchannel_start_state = StartState.start_failed) with
  | some d => mfc_fail m (d.err.getD 0)
  | none => perform_txmodify env m

/-- The per-destination fundchannel_start spark: success records the
funding script and moves to started, failure records the error and moves to
start_failed. -/
def fundchannel_start_result (env : Env) (d : Dest) : Dest :=
  match env.fundchannel_start d.id with
  | Except.ok script =>
    { d with fundchannel_start_state := StartState.started,
             funding_script := some script }
  | Except.error e =>
    { d with fundchannel_start_state := StartState.start_failed,
             err := some e }

/-- perform_fundchannel_start: spark fundchannel_start for every
destination, wait for all, then proceed. -/
def perform_fundchannel_start (env : Env) (m : MfcState) : Trace :=
  m.dests.map (fun d => emit m (Ev.fundchannelStartReq d.id)) ++
    after_fundchannel_start env
      { m with dests := m.dests.map (fundchannel_start_result env) }

/-- create_placeholder_addr: a unique placeholder address per destination
id (a sha256-derived P2WSH in the C; injectivity is what matters). -/
def placeholder_addr (id : Nat) : Nat := id

/-- The per-destination body of the output-checking loop of
after_dryrun_txprepare: find the placeholder output, take its value as the
destination amount, cap an "all" amount at chainparams->max_funding when
the peer did not negotiate large channels, and clear the all flag.  A
missing output is a plugin_err (none). -/
def resolve_dest (chainMax : Nat) (outputs : List (Nat × Nat)) (d : Dest) :
    Option Dest :=
  match outputs.find? (fun o => o.1 = placeholder_addr d.id) with
  | none => none
  | some o =>
    let amount := o.2
    let amount :=
      if d.all && !d.large_channels && decide (amount > chainMax) then chainMax
      else amount
    some { d with amount := amount, all := false }

/-- The output-checking loop over all destinations. -/
def resolve_dests (chainMax : Nat) (outputs : List (Nat × Nat)) :
    List Dest → Option (List Dest)
  | [] => some []
  | d :: rest =>
    match resolve_dest chainMax outputs d, resolve_dests chainMax outputs rest with
    | some d', some rest' => some (d' :: rest')
    | _, _ => none

/-- after_dryrun_txprepare: resolve every destination's amount against the
dry-run outputs, then start the channel openings. -/
def after_dryrun_txprepare (env : Env) (chainMax : Nat) (m : MfcState)
    (res : DryResult) : Trace :=
  match resolve_dests chainMax res.outputs m.dests with
  | none => [emit m Ev.crash]
  | some dests2 => perform_fundchannel_start env { m with dests := dests2 }

/-- perform_dryrun_txprepare: the placeholder txprepare; its txid becomes
the reserved txid. -/
def perform_dryrun_txprepare (env : Env) (chainMax : Nat) (m : MfcState) :
    Trace :=
  emit m (Ev.txprepareReq true) ::
    (match env.dryrun with
     | Except.error e => mfc_fail m e
     | Except.ok res =>
       after_dryrun_txprepare env chainMax { m with txid := some res.txid } res)

/-- Whether a list of ids contains a duplicate. -/
def hasDup : List Nat → Bool
  | [] => false
  | x :: rest => rest.contains x || hasDup rest

/-- after_multiconnect: record each peer's features, reject duplicate
destination ids, then dry-run.  A result of the wrong shape is a plugin_err
(crash). -/
def after_multiconnect (env : Env) (chainMax : Nat) (m : MfcState)
    (features : List Bool) : Trace :=
  if features.length ≠ m.dests.length then [emit m Ev.crash]
  else
    let dests1 :=
      (m.dests.zip features).map (fun df => { df.1 with large_channels := df.2 })
    let m1 : MfcState := { m with dests := dests1 }
    if hasDup (m1.dests.map (fun d => d.id)) then
      mfc_fail m1 JSONRPC2_INVALID_PARAMS
    else perform_dryrun_txprepare env chainMax m1

/-- perform_multiconnect: connect to all peers through multiconnect. -/
def perform_multiconnect (env : Env) (chainMax : Nat) (m : MfcState) : Trace :=
  emit m Ev.connectReq ::
    (match env.connect with
     | Except.error e => mfc_fail m e
     | Except.ok fs => after_multiconnect env chainMax m fs)

/-- A destination as given in the command parameters; `none` for the amount
means the string "all". -/
structure DestInput where
  id : Nat
  amount : Option Nat
deriving DecidableEq

/-- The initial destination record built by create_destinations_array. -/
def init_dest (di : DestInput) : Dest :=
  { id := di.id, large_channels := false, all := di.amount.isNone,
    amount := di.amount.getD 0,
    fundchannel_start_state := StartState.not_yet,
    funding_script := none, outnum := none, channel_id := none, err := none }

/-- How many destinations carry the "all" amount. -/
def countAll (l : List DestInput) : Nat :=
  (l.filter (fun di => di.amount.isNone)).length

/-- json_multifundchannel: validate the destinations (non-empty, at most
one "all", and "all" only alone), then run the pipeline. -/
def json_multifundchannel (env : Env) (chainMax : Nat)
    (inputs : List DestInput) : Trace :=
  let m0 : MfcState := ⟨inputs.map init_dest, none⟩
  if inputs.length = 0 then mfc_fail m0 JSONRPC2_INVALID_PARAMS
  else if 2 ≤ countAll inputs then mfc_fail m0 JSONRPC2_INVALID_PARAMS
  else if countAll inputs = 1 && 1 < inputs.length then
    mfc_fail m0 JSONRPC2_INVALID_PARAMS
  else perform_multiconnect env chainMax m0

/-- Whether an event is a user-visible reply. -/
def isReply : Ev → Bool
  | Ev.replyErr _ => true
  | Ev.replyOk _ _ _ => true
  | _ => false

/-- Whether an event is an ordinary pipeline event: neither a reply nor a
cleanup operation. -/
def plainEv : Ev → Bool
  | Ev.replyErr _ => false
  | Ev.replyOk _ _ _ => false
  | Ev.cleanupTxdiscard _ => false
  | Ev.cleanupCancel _ => false
  | _ => true

/-- A trace segment of ordinary pipeline events. -/
def Plain (t : Trace) : Prop := ∀ it ∈ t, plainEv it.1 = true

/-- Every execution trace is a plain pipeline prefix followed by exactly
one terminal tail: an error reply preceded by its cleanup, a success reply
preceded by its cleanup, or a crash. -/
def Terminal (t : Trace) : Prop :=
  (∃ pre m e, t = pre ++ mfc_fail m e ∧ Plain pre) ∨
  (∃ pre m tx txid, t = pre ++ mfc_finished m tx txid ∧ Plain pre) ∨
  (∃ pre m, t = pre ++ [emit m Ev.crash] ∧ Plain pre)

/-- No destination in the item's snapshot is done. -/
def NoDoneSnap (it : Item) : Prop :=
  ∀ pr ∈ it.2.dests, pr.2 ≠ StartState.done

/-- Every destination in the item's snapshot is done. -/
def AllDoneSnap (it : Item) : Prop :=
  ∀ pr ∈ it.2.dests, pr.2 = StartState.done

/-- The item is not a txsend request. -/
def NotTxsend (it : Item) : Prop := ∀ x, it.1 ≠ Ev.txsendReq x

/-- No cancel event occurs in the trace segment. -/
def NoCancel (t : Trace) : Prop := ∀ id s', (Ev.cleanupCancel id, s') ∉ t

/-- The phase structure used for the done-marking claim: a trace splits
into a pre-broadcast part, where no snapshot shows a done destination and
no txsend request occurs, and a broadcast part, where every snapshot shows
all destinations done and no cancel is ever issued; moreover if the
broadcast part is reached, the pre-broadcast part issued no cancel. -/
def MfcSplit (t : Trace) : Prop :=
  ∃ t1 t2, t = t1 ++ t2 ∧
    (∀ it ∈ t1, NoDoneSnap it ∧ NotTxsend it) ∧
    (∀ it ∈ t2, AllDoneSnap it) ∧
    NoCancel t2 ∧
    (t2 ≠ [] → NoCancel t1)

/-- No destination of the command state is done. -/
def NoDoneState (m : MfcState) : Prop :=
  ∀ d ∈ m.dests, d.fundchannel_start_state ≠ StartState.done

/-- An ordinary pipeline item under a snapshot with no done destination. -/
def PipelineItem (it : Item) : Prop :=
  NoDoneSnap it ∧ NotTxsend it ∧ ∀ id, it.1 ≠ Ev.cleanupCancel id

end Mfc


/-! ## Theorems

Helper lemmas first, then per-claim theorems with their witnesses and
counterexamples. -/

namespace Dhcache

/-- Writing one slot leaves the other slot unchanged. -/
theorem slotGet_slotSet_ne (s : Slots) (sel sel' : Bool) (v : Nat)
    (h : sel' ≠ sel) : slotGet (slotSet s sel v) sel' = slotGet s sel' := by
  cases sel <;> cases sel' <;> simp_all [slotGet, slotSet]

/-- A non-flip writer operation preserves the dhcache object and the slot
opposite the current writer selector, for every node. -/
theorem applyOp_noflip (w : World) (op : WriterOp) (hop : op ≠ WriterOp.flip) :
    (applyOp w op).dh = w.dh ∧
      ∀ n, slotGet ((applyOp w op).dist n) (!w.dh.writer_selector)
        = slotGet (w.dist n) (!w.dh.writer_selector) := by
  cases op with
  | clear_all =>
    refine ⟨rfl, fun n => ?_⟩
    simp only [applyOp, dhcache_writer_clear_all_nodes]
    by_cases h : n ∈ w.nodes
    · simp [h, slotGet_slotSet_ne _ _ _ _ (Bool.not_ne_self _)]
    · simp [h]
  | set_distance m d =>
    refine ⟨rfl, fun n => ?_⟩
    simp only [applyOp, dhcache_writer_set_distance, updateNode]
    by_cases h : n = m
    · simp [h, slotGet_slotSet_ne _ _ _ _ (Bool.not_ne_self _)]
    · simp [h]
  | mark_visited m =>
    refine ⟨rfl, fun n => ?_⟩
    simp only [applyOp, dhcache_writer_mark_visited, updateNode]
    by_cases h : n = m
    · simp [h, slotGet_slotSet_ne _ _ _ _ (Bool.not_ne_self _)]
    · simp [h]
  | flip => exact absurd rfl hop

/-- A flip-free sequence of writer operations preserves the dhcache object
and the slot opposite the original writer selector, for every node. -/
theorem applyOps_noflip (ops : List WriterOp) :
    ∀ w : World, WriterOp.flip ∉ ops →
      (applyOps w ops).dh = w.dh ∧
        ∀ n, slotGet ((applyOps w ops).dist n) (!w.dh.writer_selector)
          = slotGet (w.dist n) (!w.dh.writer_selector) := by
  induction ops with
  | nil => intro w _; exact ⟨rfl, fun _ => rfl⟩
  | cons op rest ih =>
    intro w hmem
    have hop : op ≠ WriterOp.flip := by
      intro h; exact hmem (h ▸ List.mem_cons_self op rest)
    have hrest : WriterOp.flip ∉ rest := fun h => hmem (List.mem_cons_of_mem _ h)
    have h1 := applyOp_noflip w op hop
    have h2 := ih (applyOp w op) hrest
    refine ⟨h2.1.trans h1.1, fun n => ?_⟩
    have hsel : (applyOp w op).dh.writer_selector = w.dh.writer_selector := by
      rw [h1.1]
    calc slotGet ((applyOps (applyOp w op) rest).dist n) (!w.dh.writer_selector)
        = slotGet ((applyOps (applyOp w op) rest).dist n)
            (!(applyOp w op).dh.writer_selector) := by rw [hsel]
      _ = slotGet ((applyOp w op).dist n) (!(applyOp w op).dh.writer_selector) :=
          h2.2 n
      _ = slotGet ((applyOp w op).dist n) (!w.dh.writer_selector) := by rw [hsel]
      _ = slotGet (w.dist n) (!w.dh.writer_selector) := h1.2 n

/-- Claim C8, counterexample: a reader captured while the cache is
available does NOT keep returning the capture-time distances under an
arbitrary later sequence of writer operations and flips: after one flip,
the next refresh's set_distance writes the reader's captured slot and the
reader's returned distance changes. -/
theorem dhcache_reader_changes_after_flip_and_write :
    (fun w0 : World =>
      dhcache_available w0.dh = true ∧
      dhcache_reader_distance (dhcache_reader_init w0 0)
          (applyOps w0 [WriterOp.flip, WriterOp.set_distance 0 5]) 0 ≠
        dhcache_reader_distance (dhcache_reader_init w0 0) w0 0)
      ⟨⟨false, true⟩, [0], fun _ => (0x80000005, 0x8000000A)⟩ := by
  decide

/-- Claim C8, amended: a reader captured while the cache is available
returns exactly the capture-time reachability and distances across any
subsequent sequence of writer operations that contains no flip, and still
across the flip that ends that refresh cycle (the flip itself rewrites no
slot); only writer operations issued after a flip can change what the
reader returns. -/
theorem dhcache_reader_isolated_until_flip (w : World) (goal n : Nat)
    (ops : List WriterOp) (havail : dhcache_available w.dh = true)
    (hnoflip : WriterOp.flip ∉ ops) :
    (dhcache_reader_is_reachable (dhcache_reader_init w goal) (applyOps w ops) n
      = dhcache_reader_is_reachable (dhcache_reader_init w goal) w n) ∧
    (dhcache_reader_distance (dhcache_reader_init w goal) (applyOps w ops) n
      = dhcache_reader_distance (dhcache_reader_init w goal) w n) ∧
    (dhcache_reader_is_reachable (dhcache_reader_init w goal)
        (applyOps w (ops ++ [WriterOp.flip])) n
      = dhcache_reader_is_reachable (dhcache_reader_init w goal) w n) ∧
    (dhcache_reader_distance (dhcache_reader_init w goal)
        (applyOps w (ops ++ [WriterOp.flip])) n
      = dhcache_reader_distance (dhcache_reader_init w goal) w n) := by
  have h := applyOps_noflip ops w hnoflip
  have hsel : (dhcache_reader_init w goal).selector = !w.dh.writer_selector := rfl
  have hslot : slotGet ((applyOps w ops).dist n) (!w.dh.writer_selector)
      = slotGet (w.dist n) (!w.dh.writer_selector) := h.2 n
  have happ : applyOps w (ops ++ [WriterOp.flip])
      = flipWorld (applyOps w ops) := by
    simp [applyOps, List.foldl_append, applyOp]
  have hflip : (flipWorld (applyOps w ops)).dist = (applyOps w ops).dist := rfl
  refine ⟨?_, ?_, ?_, ?_⟩
  · simp [dhcache_reader_is_reachable, hsel, hslot]
  · simp [dhcache_reader_distance, hsel, hslot]
  · simp [dhcache_reader_is_reachable, happ, hflip, hsel, hslot]
  · simp [dhcache_reader_distance, happ, hflip, hsel, hslot]

/-- Witness for the amended C8 theorem at a concrete world, goal, node and
flip-free operation sequence. -/
theorem dhcache_reader_isolated_until_flip_witness :
    (fun w0 : World =>
      dhcache_reader_distance (dhcache_reader_init w0 0)
          (applyOps w0 [WriterOp.set_distance 0 5, WriterOp.clear_all]) 0
        = dhcache_reader_distance (dhcache_reader_init w0 0) w0 0)
      ⟨⟨false, true⟩, [0], fun _ => (0x80000005, 0x8000000A)⟩ :=
  (dhcache_reader_isolated_until_flip
    ⟨⟨false, true⟩, [0], fun _ => (0x80000005, 0x8000000A)⟩ 0 0
    [WriterOp.set_distance 0 5, WriterOp.clear_all] (by decide)
    (by decide)).2.1

/-- Evaluating priority_queue_get_min on a singleton queue. -/
theorem pq_get_min_singleton (nid p : Nat) :
    priority_queue_get_min [(nid, p)] = some ((nid, p), []) := by
  simp [priority_queue_get_min, pq_min_priority, pq_remove_first, List.find?]

/-- Claim C7, counterexample: the refresher loop step performs NO
staleness filtering at pop time.  Here the popped entry has priority 10
while the node's current writer-slot distance is 5; the claim says the
entry is skipped without expanding neighbours, but the step relaxes the
neighbour (marking it visited at distance 8) and pushes it. -/
theorem refresher_stale_entry_not_skipped :
    (fun proc0 : RefreshProcess =>
      priority_queue_get_min proc0.queue = some ((1, 10), []) ∧
      proc0.rstate.nodes.contains 1 = true ∧
      dhcache_writer_get_distance proc0.world 1 < 10 ∧
      (refresh_process_step_loop (fun _ _ _ => 3) proc0).2.queue = [(2, 8)] ∧
      dhcache_writer_get_visited
        (refresh_process_step_loop (fun _ _ _ => 3) proc0).2.world 2 = true ∧
      dhcache_writer_get_distance
        (refresh_process_step_loop (fun _ _ _ => 3) proc0).2.world 2 = 8)
      ⟨[(1, 10)],
       ⟨⟨false, true⟩, [0, 1, 2],
        fun n => if n = 1 then (0x80000005, 0) else (0x7FFFFFFF, 0)⟩,
       ⟨[0, 1, 2], [⟨1, 2⟩]⟩⟩ := by
  decide

/-- Claim C7, amended: the loop step never consults the popped entry's
priority.  A popped entry whose node still exists is always processed, its
neighbours relaxed from the node's current writer-slot distance: the step
result is identical for any two priorities attached to the same popped
node. -/
theorem refresher_pop_ignores_priority (cost : Nat → RChan → Nat → Nat)
    (w : World) (rs : RState) (nid p1 p2 : Nat)
    (h : rs.nodes.contains nid = true) :
    (refresh_process_step_loop cost ⟨[(nid, p1)], w, rs⟩).1 = StepResult.next ∧
    (refresh_process_step_loop cost ⟨[(nid, p1)], w, rs⟩).2.queue
      = (refresh_process_step_loop cost ⟨[(nid, p2)], w, rs⟩).2.queue ∧
    ∀ n, (refresh_process_step_loop cost ⟨[(nid, p1)], w, rs⟩).2.world.dist n
      = (refresh_process_step_loop cost ⟨[(nid, p2)], w, rs⟩).2.world.dist n := by
  have h' : nid ∈ rs.nodes := by simpa using h
  refine ⟨?_, ?_, fun n => ?_⟩ <;>
    simp [refresh_process_step_loop, pq_get_min_singleton, h']

/-- Witness for the amended C7 theorem at a concrete cost function, world,
routing state and two different priorities for the same entry. -/
theorem refresher_pop_ignores_priority_witness :
    (fun proc0 : RefreshProcess =>
      (refresh_process_step_loop (fun _ _ _ => 3) proc0).1 = StepResult.next ∧
      (refresh_process_step_loop (fun _ _ _ => 3) proc0).2.queue
        = (refresh_process_step_loop (fun _ _ _ => 3)
            ⟨[(1, 3)], proc0.world, proc0.rstate⟩).2.queue)
      ⟨[(1, 10)],
       ⟨⟨false, true⟩, [0, 1, 2],
        fun n => if n = 1 then (0x80000005, 0) else (0x7FFFFFFF, 0)⟩,
       ⟨[0, 1, 2], [⟨1, 2⟩]⟩⟩ :=
  (fun h => ⟨h.1, h.2.1⟩)
    (refresher_pop_ignores_priority (fun _ _ _ => 3)
      ⟨⟨false, true⟩, [0, 1, 2],
       fun n => if n = 1 then (0x80000005, 0) else (0x7FFFFFFF, 0)⟩
      ⟨[0, 1, 2], [⟨1, 2⟩]⟩ 1 10 3 (by decide))

end Dhcache

namespace Txaccelerate

/-- Claim C9: the code contradicts the claim (and its own in-source
comment).  The default aggression argument, ten percent, is converted by
json_txaccelerate to the number 1000 rather than 0.1, so with estimate
total = 1000 sat, max = 2000 sat and caller limit 10000 sat the first
txaccelerate_execute is invoked with 2000 sat (the cap), not the claimed
1000 + (10000 - 1000) * 0.10 = 1900 sat.  The ID_NOT_FOUND-means-success
part of the claim does hold. -/
theorem txaccelerate_aggression_code_bug :
    acc_aggression default_aggression_millionths = 1000 ∧
    acc_loop 1000 500 2000 10000
        (acc_aggression default_aggression_millionths) false
      = LoopAction.execute 2000 ∧
    LoopAction.execute 2000 ≠ LoopAction.execute 1900 ∧
    txaccelerate_execute_err TXACCELERATE_ID_NOT_FOUND
      = ExecErrDisposition.success := by
  refine ⟨?_, ?_, by decide, by decide⟩
  · norm_num [acc_aggression, default_aggression_millionths]
  · have hagg : acc_aggression default_aggression_millionths = 1000 := by
      norm_num [acc_aggression, default_aggression_millionths]
    have hfloor : ((9001000 : ℚ)).floor = 9001000 := by
      have h9 : ((9001000 : ℚ)).floor = ⌊(9001000 : ℚ)⌋ := rfl
      rw [h9]; norm_num
    norm_num [acc_loop, hagg, hfloor]

end Txaccelerate

namespace Permuteroute

/-- The adjusted prefix has the same length as the original. -/
theorem adjust_length (ad dd : Nat) (l : List RouteHop) :
    (adjust ad dd l).length = l.length := by
  induction l with
  | nil => rfl
  | cons h rest ih => simp [adjust, ih]

/-- Pointwise amounts of the adjusted prefix: position j gains the base
delta plus one millisatoshi per hop between it and the end of the
prefix. -/
theorem adjust_getD_amount (ad dd : Nat) :
    ∀ (l : List RouteHop) (j : Nat), j < l.length →
      ((adjust ad dd l).getD j default).amount
        = (l.getD j default).amount + ad + (l.length - 1 - j) := by
  intro l
  induction l with
  | nil => intro j hj; simp at hj
  | cons h rest ih =>
    intro j hj
    cases j with
    | zero => simp [adjust]
    | succ k =>
      have hk : k < rest.length := by
        simpa [Nat.succ_lt_succ_iff] using hj
      have := ih k hk
      simp only [adjust, List.getD_cons_succ, List.length_cons]
      rw [this]
      congr 1
      omega

/-- Pointwise delays of the adjusted prefix: every position gains the same
delay delta. -/
theorem adjust_getD_delay (ad dd : Nat) :
    ∀ (l : List RouteHop) (j : Nat), j < l.length →
      ((adjust ad dd l).getD j default).delay
        = (l.getD j default).delay + dd := by
  intro l
  induction l with
  | nil => intro j hj; simp at hj
  | cons h rest ih =>
    intro j hj
    cases j with
    | zero => simp [adjust]
    | succ k =>
      have hk : k < rest.length := by
        simpa [Nat.succ_lt_succ_iff] using hj
      have := ih k hk
      simp only [adjust, List.getD_cons_succ]
      rw [this]

/-- Claim C4: the successful permuteroute splice.  The two emitted hops
carry the destination amount, delay and style on h2; h1 adds hop2's fee and
CLTV delta; the prefix arrival adds hop1's fee and CLTV delta; and the
copied prefix is left unchanged when it already supplies what the splice
needs, and otherwise each hop's amount grows by the clamped amount delta
plus one millisatoshi per hop walked backward, its delay by the clamped
delay delta. -/
theorem permuteroute_splice_spec (prc : PRC) (hop1 hop2 : ChannelData)
    (vo : Bool) :
    (((prc_splice prc hop1 hop2 vo).1.getD 1 default).amount = prc.dest_amount ∧
     ((prc_splice prc hop1 hop2 vo).1.getD 1 default).delay = prc.dest_delay ∧
     ((prc_splice prc hop1 hop2 vo).1.getD 1 default).style = prc.dest_style) ∧
    (((prc_splice prc hop1 hop2 vo).1.getD 0 default).amount
        = add_fee ((prc_splice prc hop1 hop2 vo).1.getD 1 default).amount
            hop2.base_fee hop2.fee_per_millionth ∧
     ((prc_splice prc hop1 hop2 vo).1.getD 0 default).delay
        = ((prc_splice prc hop1 hop2 vo).1.getD 1 default).delay + hop2.delay) ∧
    ((prc_splice prc hop1 hop2 vo).2.1
        = add_fee ((prc_splice prc hop1 hop2 vo).1.getD 0 default).amount
            hop1.base_fee hop1.fee_per_millionth ∧
     (prc_splice prc hop1 hop2 vo).2.2
        = ((prc_splice prc hop1 hop2 vo).1.getD 0 default).delay + hop1.delay) ∧
    (∀ pa pd, pa = (prc_splice prc hop1 hop2 vo).2.1 →
      pd = (prc_splice prc hop1 hop2 vo).2.2 →
      prc.source_index ≠ 0 →
      (∀ pfx al dl, pfx = prc.route.take prc.source_index →
        al = (pfx.getLastD default).amount →
        dl = (pfx.getLastD default).delay →
        (pa ≤ al ∧ pd ≤ dl → prc_complete_pfx prc pa pd = pfx) ∧
        (¬(pa ≤ al ∧ pd ≤ dl) →
          (prc_complete_pfx prc pa pd).length = pfx.length ∧
          ∀ j, j < pfx.length →
            ((prc_complete_pfx prc pa pd).getD j default).amount
              = (pfx.getD j default).amount + (pa - al) + (pfx.length - 1 - j) ∧
            ((prc_complete_pfx prc pa pd).getD j default).delay
              = (pfx.getD j default).delay
                  + (if pd > dl then pd - dl else 0)))) := by
  refine ⟨⟨rfl, rfl, rfl⟩, ⟨rfl, rfl⟩, ⟨rfl, rfl⟩, ?_⟩
  intro pa pd hpa hpd hs pfx al dl hpfx hal hdl
  have hunfold : prc_complete_pfx prc pa pd
      = (if (pa - al) = 0 && (if pd > dl then pd - dl else 0) = 0
         then pfx
         else adjust (pa - al) (if pd > dl then pd - dl else 0) pfx) := by
    subst hal; subst hdl; subst hpfx
    rw [prc_complete_pfx, if_neg hs]
  constructor
  · rintro ⟨h1, h2⟩
    have hz1 : pa - al = 0 := Nat.sub_eq_zero_of_le h1
    have hz2 : (if pd > dl then pd - dl else 0) = 0 := by
      rw [if_neg (by omega)]
    rw [hunfold, hz1, hz2]
    simp
  · intro hne
    have hcond : ((pa - al) = 0 && (if pd > dl then pd - dl else 0) = 0) = false := by
      rcases Nat.lt_or_ge al pa with hlt | hle
      · have h1 : ¬ (pa - al = 0) := by omega
        simp [h1]
      · have h2 : dl < pd := by
          by_contra hno
          exact hne ⟨hle, by omega⟩
        have h3 : pd - dl ≠ 0 := by omega
        simp [h2, h3]
    rw [hunfold, if_neg (by rw [hcond]; exact Bool.false_ne_true)]
    refine ⟨adjust_length _ _ _, fun j hj => ?_⟩
    exact ⟨adjust_getD_amount _ _ pfx j hj, adjust_getD_delay _ _ pfx j hj⟩

/-- Witness for the C4 theorem at concrete channels and a three-hop route
with a one-hop prefix that needs adjusting. -/
theorem permuteroute_splice_spec_witness :
    (fun (prc : PRC) (hop1 hop2 : ChannelData) =>
      ((prc_splice prc hop1 hop2 false).1.getD 1 default).amount = 1000 ∧
      ((prc_complete_pfx prc (prc_splice prc hop1 hop2 false).2.1
          (prc_splice prc hop1 hop2 false).2.2).getD 0 default).amount
        = 1005 + 8 + 0)
      ⟨[⟨40, 0, 4, 1005, 12, Style.legacy⟩,
        ⟨41, 0, 5, 1003, 11, Style.legacy⟩,
        ⟨42, 0, 6, 1000, 9, Style.legacy⟩], 1, 2, 1000, 9, Style.legacy⟩
      ⟨7, 8, 70, 0, true, 10, 1000, 6, 0, 100000000⟩
      ⟨8, 6, 80, 1, true, 2, 0, 5, 0, 100000000⟩ := by
  have h := permuteroute_splice_spec
    ⟨[⟨40, 0, 4, 1005, 12, Style.legacy⟩,
      ⟨41, 0, 5, 1003, 11, Style.legacy⟩,
      ⟨42, 0, 6, 1000, 9, Style.legacy⟩], 1, 2, 1000, 9, Style.legacy⟩
    ⟨7, 8, 70, 0, true, 10, 1000, 6, 0, 100000000⟩
    ⟨8, 6, 80, 1, true, 2, 0, 5, 0, 100000000⟩ false
  refine ⟨h.1.1, ?_⟩
  have hp := (h.2.2.2 _ _ rfl rfl (by decide) _ _ _ rfl rfl rfl).2 (by decide) |>.2
    0 (by decide)
  have := hp.1
  simpa using this

end Permuteroute

namespace Pathdiversity

/-- Membership in the exclusion walk: any link of the chain contributes all
of its channel ids. -/
theorem mem_exclusions_of_mem_link (g : List HalfChan) (x : Nat) :
    ∀ (links : List Link) (l : Link), l ∈ links → x ∈ exclusions_for_link g l →
      x ∈ links.foldr (fun l acc => exclusions_for_link g l ++ acc) [] := by
  intro links
  induction links with
  | nil => intro l hl; exact absurd hl (List.not_mem_nil l)
  | cons hd tl ih =>
    intro l hl hx
    rcases List.mem_cons.mp hl with rfl | hl'
    · exact List.mem_append.mpr (Or.inl hx)
    · exact List.mem_append.mpr (Or.inr (ih l hl' hx))

/-- Membership in the direction expansion: an excluded channel id appears
with both directions. -/
theorem mem_exclude_entries (x : Nat) :
    ∀ excs : List Nat, x ∈ excs →
      (x, 0) ∈ exclude_entries excs ∧ (x, 1) ∈ exclude_entries excs := by
  intro excs
  induction excs with
  | nil => intro h; exact absurd h (List.not_mem_nil x)
  | cons hd tl ih =>
    intro h
    rcases List.mem_cons.mp h with rfl | h'
    · exact ⟨List.mem_cons_self _ _,
        List.mem_cons_of_mem _ (List.mem_cons_self _ _)⟩
    · have := ih h'
      exact ⟨List.mem_cons_of_mem _ (List.mem_cons_of_mem _ this.1),
        List.mem_cons_of_mem _ (List.mem_cons_of_mem _ this.2)⟩

/-- Claim C3: for every link on the chain of the popped edge, every
half-channel from that link's source to its destination has its channel
banned in both directions in the exclude list passed to getroute. -/
theorem pathdiversity_bans_all_pair_channels
    (p_excludes : List (Nat × Nat)) (g : List HalfChan) (e : Option Edge)
    (link : Link) (c : HalfChan)
    (hlink : link ∈ e.getD []) (hc : c ∈ g)
    (hsrc : c.source = link.1) (hdst : c.destination = link.2) :
    (c.scid, 0) ∈ pathdiversity_getroute_excludes p_excludes g e ∧
    (c.scid, 1) ∈ pathdiversity_getroute_excludes p_excludes g e := by
  rcases e with _ | links
  · exact absurd hlink (List.not_mem_nil link)
  · have hchan : c ∈ (listchannels_from g link.1).filter
        (fun ch => ch.destination = link.2) := by
      refine List.mem_filter.mpr ⟨?_, by simp [hdst]⟩
      exact List.mem_filter.mpr ⟨hc, by simp [hsrc]⟩
    have hscid : c.scid ∈ exclusions_for_link g link :=
      List.mem_map.mpr ⟨c, hchan, rfl⟩
    have hexc : c.scid ∈ pathdiversity_get_exclusions g (some links) :=
      mem_exclusions_of_mem_link g c.scid links link (by simpa using hlink) hscid
    have hboth := mem_exclude_entries c.scid _ hexc
    exact ⟨List.mem_append.mpr (Or.inr hboth.1),
      List.mem_append.mpr (Or.inr hboth.2)⟩

/-- Witness for the C3 theorem: two parallel channels between the banned
pair (5, 6) both land in the exclude list, in both directions. -/
theorem pathdiversity_bans_all_pair_channels_witness :
    ((101, 0) ∈ pathdiversity_getroute_excludes []
        [⟨5, 6, 101⟩, ⟨5, 6, 102⟩] (some [(5, 6)]) ∧
     (101, 1) ∈ pathdiversity_getroute_excludes []
        [⟨5, 6, 101⟩, ⟨5, 6, 102⟩] (some [(5, 6)])) ∧
    ((102, 0) ∈ pathdiversity_getroute_excludes []
        [⟨5, 6, 101⟩, ⟨5, 6, 102⟩] (some [(5, 6)]) ∧
     (102, 1) ∈ pathdiversity_getroute_excludes []
        [⟨5, 6, 101⟩, ⟨5, 6, 102⟩] (some [(5, 6)])) :=
  ⟨pathdiversity_bans_all_pair_channels [] [⟨5, 6, 101⟩, ⟨5, 6, 102⟩]
      (some [(5, 6)]) (5, 6) ⟨5, 6, 101⟩ (by decide) (by decide) rfl rfl,
   pathdiversity_bans_all_pair_channels [] [⟨5, 6, 101⟩, ⟨5, 6, 102⟩]
      (some [(5, 6)]) (5, 6) ⟨5, 6, 102⟩ (by decide) (by decide) rfl rfl⟩

/-- Claim C6: when a candidate route violates a budget, the popped edge
decides the reaction.  At the tree root (no popped edge) the payment is
failed, with the most expensive edge excluded on a fee violation and the
longest-delay edge excluded on a CLTV violation; below the root the
destination's queue is cleared and the traversal recurses (the emptied
queue makes the next pop restart at the tree root). -/
theorem pathdiversity_budget_violation (g : List HalfChan)
    (oracle : List (Nat × Nat) → Option (List Hop)) (p : Payment)
    (st : GrState) (route : List Hop)
    (ho : oracle (pathdiversity_getroute_excludes p.excludes g st.q.head?)
      = some route)
    (hne : route.isEmpty = false)
    (hnodup : routecache_member (if st.q.isEmpty then [] else st.rc) route
      = false)
    (hamt : ¬ route.headI.amount < p.amount)
    (hviol : pathdiversity_check_constraints p route ≠ Violation.OK) :
    (st.q = [] →
      pd_iter g oracle p st =
        ([GrEvent.cacheClear],
         IterResult.failedPayment
           (if pathdiversity_check_constraints p route = Violation.OUT_OF_FEES
            then payment_exclude_most_expensive p route
            else payment_exclude_longest_delay p route)
           ⟨route_edges p.local_id route none, [nodeids route]⟩)) ∧
    (∀ x xs, st.q = x :: xs →
      pd_iter g oracle p st =
        ([GrEvent.queueCleared],
         IterResult.next ⟨[], st.rc ++ [nodeids route]⟩)) := by
  obtain ⟨q, rc⟩ := st
  constructor
  · rintro rfl
    simp only [List.head?_nil] at ho
    simp only [List.isEmpty_nil, if_true] at hnodup
    rcases hv : pathdiversity_check_constraints p route with _ | _ | _
    · exact absurd hv hviol
    · simp [pd_iter, ho, hne, hnodup, hamt, hv]
    · simp [pd_iter, ho, hne, hnodup, hamt, hv]
  · rintro x xs rfl
    simp only [List.head?_cons] at ho
    simp only [List.isEmpty_cons, Bool.false_eq_true, if_false] at hnodup
    rcases hv : pathdiversity_check_constraints p route with _ | _ | _
    · exact absurd hv hviol
    · simp [pd_iter, ho, hne, hnodup, hamt, hv]
    · simp [pd_iter, ho, hne, hnodup, hamt, hv]

/-- Witness for the C6 theorem: the same over-budget route once popped at
the tree root (payment failed, most expensive edge excluded) and once below
it (queue cleared, traversal restarted). -/
theorem pathdiversity_budget_violation_witness :
    (pd_iter [] (fun _ => some [⟨1, 9, 0, 5000, 10⟩])
        ⟨0, 1000, 100, 100, 9, []⟩ ⟨[], []⟩ =
      ([GrEvent.cacheClear],
       IterResult.failedPayment
         (payment_exclude_most_expensive ⟨0, 1000, 100, 100, 9, []⟩
           [⟨1, 9, 0, 5000, 10⟩])
         ⟨route_edges 0 [⟨1, 9, 0, 5000, 10⟩] none,
          [nodeids [⟨1, 9, 0, 5000, 10⟩]]⟩)) ∧
    (pd_iter [] (fun _ => some [⟨1, 9, 0, 5000, 10⟩])
        ⟨0, 1000, 100, 100, 9, []⟩ ⟨[[(0, 1)]], []⟩ =
      ([GrEvent.queueCleared],
       IterResult.next ⟨[], [] ++ [nodeids [⟨1, 9, 0, 5000, 10⟩]]⟩)) := by
  constructor
  · have h := pathdiversity_budget_violation []
      (fun _ => some [⟨1, 9, 0, 5000, 10⟩]) ⟨0, 1000, 100, 100, 9, []⟩
      ⟨[], []⟩ [⟨1, 9, 0, 5000, 10⟩] rfl (by decide) (by decide) (by decide)
      (by decide)
    have h1 := h.1 rfl
    rw [h1]
    simp [pathdiversity_check_constraints]
  · have h := pathdiversity_budget_violation []
      (fun _ => some [⟨1, 9, 0, 5000, 10⟩]) ⟨0, 1000, 100, 100, 9, []⟩
      ⟨[[(0, 1)]], []⟩ [⟨1, 9, 0, 5000, 10⟩] rfl (by decide) (by decide)
      (by decide) (by decide)
    exact h.2 [(0, 1)] [] rfl

end Pathdiversity

namespace Pathdiversity

/-- Case analysis of one traversal iteration, as needed for the
no-duplicate invariant: the emitted events are at most one clear marker;
whenever the iteration carries a state onward, everything returned since
the last cache clear stays in the route cache; and a route handed to the
caller was not in the cache-tracked set and is in the cache afterwards. -/
theorem pd_iter_spec (g : List HalfChan)
    (oracle : List (Nat × Nat) → Option (List Hop)) (p : Payment)
    (st : GrState) (seen : List (List Nat))
    (hseen : ∀ x ∈ seen, x ∈ st.rc) :
    ((pd_iter g oracle p st).1 = [] ∨
     (pd_iter g oracle p st).1 = [GrEvent.cacheClear] ∨
     (pd_iter g oracle p st).1 = [GrEvent.queueCleared]) ∧
    (∀ st', iter_state (pd_iter g oracle p st).2 = some st' →
      ∀ x ∈ (if GrEvent.cacheClear ∈ (pd_iter g oracle p st).1 then
          ([] : List (List Nat)) else seen), x ∈ st'.rc) ∧
    (∀ r st', (pd_iter g oracle p st).2 = IterResult.gotRoute r st' →
      nodeids r ∉ (if GrEvent.cacheClear ∈ (pd_iter g oracle p st).1 then
          ([] : List (List Nat)) else seen) ∧
      nodeids r ∈ st'.rc) := by
  obtain ⟨q, rc⟩ := st
  cases q with
  | nil =>
    rcases ho : oracle (pathdiversity_getroute_excludes p.excludes g none)
      with _ | route
    · simp [pd_iter, ho, iter_state]
    · by_cases hne : route.isEmpty
      · simp [pd_iter, ho, hne, iter_state]
      · have hnodup : routecache_member [] route = false := by
          simp [routecache_member]
        by_cases hamt : route.headI.amount < p.amount
        · simp [pd_iter, ho, hne, hnodup, hamt, iter_state]
        · rcases hv : pathdiversity_check_constraints p route with _ | _ | _
          · refine ⟨?_, ?_, ?_⟩ <;>
              simp [pd_iter, ho, hne, hnodup, hamt, hv, iter_state]
          · simp [pd_iter, ho, hne, hnodup, hamt, hv, iter_state]
          · simp [pd_iter, ho, hne, hnodup, hamt, hv, iter_state]
  | cons x xs =>
    rcases ho : oracle (pathdiversity_getroute_excludes p.excludes g (some x))
      with _ | route
    · refine ⟨by simp [pd_iter, ho], ?_, by simp [pd_iter, ho]⟩
      intro st' hst'
      simp [pd_iter, ho, iter_state] at hst'
      subst hst'
      simpa [pd_iter, ho] using hseen
    · by_cases hne : route.isEmpty
      · simp [pd_iter, ho, hne, iter_state]
      · by_cases hnodup : routecache_member rc route
        · refine ⟨by simp [pd_iter, ho, hne, hnodup], ?_,
            by simp [pd_iter, ho, hne, hnodup]⟩
          intro st' hst'
          simp [pd_iter, ho, hne, hnodup, iter_state] at hst'
          subst hst'
          simpa [pd_iter, ho, hne, hnodup] using hseen
        · have hnotmem : nodeids route ∉ rc := by
            have := hnodup
            simpa [routecache_member] using this
          have hnodup' : routecache_member rc route = false := by
            simpa using hnodup
          by_cases hamt : route.headI.amount < p.amount
          · simp [pd_iter, ho, hne, hnodup', hamt, iter_state]
          · rcases hv : pathdiversity_check_constraints p route with _ | _ | _
            · refine ⟨by simp [pd_iter, ho, hne, hnodup', hamt, hv], ?_, ?_⟩
              · intro st' hst'
                simp [pd_iter, ho, hne, hnodup', hamt, hv, iter_state] at hst'
                subst hst'
                intro y hy
                simp [pd_iter, ho, hne, hnodup', hamt, hv] at hy
                exact List.mem_append.mpr (Or.inl (hseen y hy))
              · intro r st' hr
                simp [pd_iter, ho, hne, hnodup', hamt, hv] at hr
                rcases hr with ⟨rfl, rfl⟩
                constructor
                · intro hmem
                  simp [pd_iter, ho, hne, hnodup', hamt, hv] at hmem
                  exact hnotmem (hseen _ hmem)
                · exact List.mem_append.mpr (Or.inr (List.mem_singleton.mpr rfl))
            · refine ⟨by simp [pd_iter, ho, hne, hnodup', hamt, hv], ?_,
                by simp [pd_iter, ho, hne, hnodup', hamt, hv]⟩
              intro st' hst'
              simp [pd_iter, ho, hne, hnodup', hamt, hv, iter_state] at hst'
              subst hst'
              intro y hy
              simp [pd_iter, ho, hne, hnodup', hamt, hv] at hy
              exact List.mem_append.mpr (Or.inl (hseen y hy))
            · refine ⟨by simp [pd_iter, ho, hne, hnodup', hamt, hv], ?_,
                by simp [pd_iter, ho, hne, hnodup', hamt, hv]⟩
              intro st' hst'
              simp [pd_iter, ho, hne, hnodup', hamt, hv, iter_state] at hst'
              subst hst'
              intro y hy
              simp [pd_iter, ho, hne, hnodup', hamt, hv] at hy
              exact List.mem_append.mpr (Or.inl (hseen y hy))

end Pathdiversity

namespace Pathdiversity

/-- Prepending at most one clear marker to a trace: after a cache clear the
tracked set restarts empty, otherwise it is unchanged. -/
theorem okFrom_append_small (seen : List (List Nat)) (evs rest : List GrEvent)
    (hevs : evs = [] ∨ evs = [GrEvent.cacheClear] ∨ evs = [GrEvent.queueCleared])
    (h : okFrom (if GrEvent.cacheClear ∈ evs then [] else seen) rest) :
    okFrom seen (evs ++ rest) := by
  rcases hevs with rfl | rfl | rfl
  · simpa using h
  · simpa [okFrom] using h
  · simp only [List.cons_append, List.nil_append, okFrom]
    simpa using h

/-- The runner preserves the no-duplicate trace property from any tracked
set contained in the route cache. -/
theorem pd_run_ok (g : List HalfChan)
    (oracle : List (Nat × Nat) → Option (List Hop)) :
    ∀ (fuel : Nat) (ps : List Payment) (st : GrState) (seen : List (List Nat)),
      (∀ x ∈ seen, x ∈ st.rc) → okFrom seen (pd_run g oracle fuel ps st) := by
  intro fuel
  induction fuel with
  | zero => intro ps st seen _; simp [pd_run, okFrom]
  | succ n ih =>
    intro ps st seen hseen
    cases ps with
    | nil => simp [pd_run, okFrom]
    | cons p ps' =>
      have hspec := pd_iter_spec g oracle p st seen hseen
      rcases hit : pd_iter g oracle p st with ⟨evs, res⟩
      rw [hit] at hspec
      cases res with
      | next st' =>
        have hsub := hspec.2.1 st' rfl
        rw [pd_run, hit]
        exact okFrom_append_small seen evs _ hspec.1 (ih _ st' _ hsub)
      | gotRoute r st' =>
        have hsub := hspec.2.1 st' rfl
        have hgot := hspec.2.2 r st' rfl
        rw [pd_run, hit]
        refine okFrom_append_small seen evs _ hspec.1 ?_
        refine ⟨hgot.1, ?_⟩
        refine ih _ st' _ ?_
        intro x hx
        rcases List.mem_append.mp hx with hx' | hx'
        · exact hsub x hx'
        · rw [List.mem_singleton.mp hx']; exact hgot.2
      | failedPayment p' st' =>
        have hsub := hspec.2.1 st' rfl
        rw [pd_run, hit]
        refine okFrom_append_small seen evs _ hspec.1 ?_
        show okFrom _ (GrEvent.failedPay :: _)
        exact ih _ st' _ hsub
      | crash =>
        rw [pd_run, hit]
        have : okFrom (if GrEvent.cacheClear ∈ evs then [] else seen) [] := by
          simp [okFrom]
        simpa using okFrom_append_small seen evs [] hspec.1 this

/-- Walking a clear-free trace segment only grows the tracked set, so a
route already tracked forces any route returned later in the segment to be
different. -/
theorem okFrom_mem_ne (r' : List Hop) (c : List GrEvent) :
    ∀ (b : List GrEvent) (seen : List (List Nat)) (x : List Nat),
      x ∈ seen → GrEvent.cacheClear ∉ b →
      okFrom seen (b ++ GrEvent.returned r' :: c) → nodeids r' ≠ x := by
  intro b
  induction b with
  | nil =>
    intro seen x hx _ hok
    have := hok.1
    intro heq
    exact this (heq ▸ hx)
  | cons ev b' ih =>
    intro seen x hx hb hok
    have hb' : GrEvent.cacheClear ∉ b' := fun h => hb (List.mem_cons_of_mem _ h)
    cases ev with
    | cacheClear => exact absurd (List.mem_cons_self _ _) hb
    | queueCleared => exact ih seen x hx hb' hok
    | failedPay => exact ih seen x hx hb' hok
    | returned r'' =>
      exact ih (seen ++ [nodeids r'']) x (List.mem_append.mpr (Or.inl hx))
        hb' hok.2

/-- In a trace satisfying the no-duplicate property, two routes returned
with no cache clear between them have different node-id sequences. -/
theorem okFrom_no_dup (r r' : List Hop) (b c : List GrEvent) :
    ∀ (a : List GrEvent) (seen : List (List Nat)),
      okFrom seen (a ++ GrEvent.returned r :: b ++ GrEvent.returned r' :: c) →
      GrEvent.cacheClear ∉ b → nodeids r ≠ nodeids r' := by
  intro a
  induction a with
  | nil =>
    intro seen hok hb
    have h2 := hok.2
    have := okFrom_mem_ne r' c b (seen ++ [nodeids r]) (nodeids r)
      (List.mem_append.mpr (Or.inr (List.mem_singleton.mpr rfl))) hb h2
    exact fun heq => this heq.symm
  | cons ev a' ih =>
    intro seen hok hb
    cases ev with
    | cacheClear => exact ih [] hok hb
    | queueCleared => exact ih seen hok hb
    | failedPay => exact ih seen hok hb
    | returned r'' => exact ih (seen ++ [nodeids r'']) hok.2 hb

/-- Claim C5: across any sequence of requests served from the same
destination's queue, two routes returned with no cache clear between them
(the cache is cleared exactly when a pop finds the queue empty) are never
identical as hop sequences. -/
theorem pathdiversity_no_duplicate_routes (g : List HalfChan)
    (oracle : List (Nat × Nat) → Option (List Hop)) (fuel : Nat)
    (ps : List Payment) (st : GrState) (a b c : List GrEvent)
    (r r' : List Hop)
    (h : pd_run g oracle fuel ps st
      = a ++ GrEvent.returned r :: b ++ GrEvent.returned r' :: c)
    (hb : GrEvent.cacheClear ∉ b) : r ≠ r' := by
  have hok := pd_run_ok g oracle fuel ps st [] (by simp)
  rw [h] at hok
  have hne := okFrom_no_dup r r' b c a [] hok hb
  intro heq
  exact hne (by rw [heq])

/-- Witness for the C5 theorem: a concrete two-request run whose trace is
one cache clear followed by two returned routes; the theorem yields that
the two routes differ. -/
theorem pathdiversity_no_duplicate_routes_witness :
    ([⟨1, 11, 0, 1005, 10⟩, ⟨3, 12, 0, 1000, 5⟩] : List Hop)
      ≠ [⟨2, 21, 0, 1006, 10⟩, ⟨3, 22, 0, 1000, 5⟩] :=
  pathdiversity_no_duplicate_routes [⟨0, 1, 10⟩]
    (fun ex =>
      if ex = [] then some [⟨1, 11, 0, 1005, 10⟩, ⟨3, 12, 0, 1000, 5⟩]
      else if ex = [(10, 0), (10, 1)] then
        some [⟨2, 21, 0, 1006, 10⟩, ⟨3, 22, 0, 1000, 5⟩]
      else none)
    2 [⟨0, 1000, 100, 100, 9, []⟩, ⟨0, 1000, 100, 100, 9, []⟩] ⟨[], []⟩
    [GrEvent.cacheClear] [] []
    [⟨1, 11, 0, 1005, 10⟩, ⟨3, 12, 0, 1000, 5⟩]
    [⟨2, 21, 0, 1006, 10⟩, ⟨3, 22, 0, 1000, 5⟩]
    (by decide) (by decide)

end Pathdiversity

namespace Mfc

/-- Claim C10: resolving an "all" destination after the dry-run txprepare.
The resolved amount is the matching placeholder output's value, silently
capped at chainparams->max_funding when the peer did not negotiate the
large-channels feature and the value exceeds it; the all flag is cleared
and the resolution succeeds (no command failure). -/
theorem mfc_resolve_all_amount (chainMax : Nat) (outputs : List (Nat × Nat))
    (d : Dest) (a v : Nat) (hall : d.all = true)
    (hfind : outputs.find? (fun o => o.1 = placeholder_addr d.id) = some (a, v)) :
    ∃ d', resolve_dest chainMax outputs d = some d' ∧
      d'.all = false ∧
      d'.amount
        = (if d.large_channels = false ∧ chainMax < v then chainMax else v) ∧
      d'.id = d.id ∧
      d'.fundchannel_start_state = d.fundchannel_start_state ∧
      d'.large_channels = d.large_channels := by
  rw [resolve_dest, hfind]
  by_cases hlc : d.large_channels
  · refine ⟨_, rfl, rfl, ?_, rfl, rfl, rfl⟩
    simp [hall, hlc]
  · by_cases hv : chainMax < v
    · refine ⟨_, rfl, rfl, ?_, rfl, rfl, rfl⟩
      have hgt : decide (v > chainMax) = true := by simpa using hv
      simp [hall, hlc, hgt, hv]
    · refine ⟨_, rfl, rfl, ?_, rfl, rfl, rfl⟩
      have hgt : decide (v > chainMax) = false := by simpa using hv
      simp [hall, hlc, hgt, hv]

/-- Witness for the C10 theorem: an "all" destination without large
channels whose placeholder output exceeds max_funding gets capped. -/
theorem mfc_resolve_all_amount_witness :
    ∃ d', resolve_dest 100 [(3, 0), (1, 150)]
        ⟨1, false, true, 0, StartState.not_yet, none, none, none, none⟩
      = some d' ∧ d'.all = false ∧ d'.amount = 100 := by
  have h := mfc_resolve_all_amount 100 [(3, 0), (1, 150)]
    ⟨1, false, true, 0, StartState.not_yet, none, none, none, none⟩ 1 150
    rfl (by decide)
  rcases h with ⟨d', h1, h2, h3, _⟩
  exact ⟨d', h1, h2, by rw [h3]; decide⟩

/-- A plain event is not a reply. -/
theorem plain_not_reply (ev : Ev) (h : plainEv ev = true) : isReply ev = false := by
  cases ev <;> first | rfl | exact absurd h (by simp [plainEv])

/-- Cleanup emits only txdiscard and cancel operations, never a reply. -/
theorem cleanup_not_reply (m : MfcState) (ev : Ev) (h : ev ∈ mfc_cleanup m) :
    isReply ev = false := by
  rcases List.mem_append.mp h with h' | h'
  · rcases htx : m.txid with _ | t <;> rw [htx] at h'
    · exact absurd h' (List.not_mem_nil ev)
    · rcases List.mem_singleton.mp h' with rfl
      rfl
  · rcases List.mem_map.mp h' with ⟨d, _, rfl⟩
    rfl

/-- Cleanup never emits a txsend request. -/
theorem cleanup_not_txsend (m : MfcState) (ev : Ev) (h : ev ∈ mfc_cleanup m) :
    ∀ x, ev ≠ Ev.txsendReq x := by
  rcases List.mem_append.mp h with h' | h'
  · rcases htx : m.txid with _ | t <;> rw [htx] at h'
    · exact absurd h' (List.not_mem_nil ev)
    · rcases List.mem_singleton.mp h' with rfl
      intro x hne; cases hne
  · rcases List.mem_map.mp h' with ⟨d, _, rfl⟩
    intro x hne; cases hne

/-- A cancel event is in the cleanup of a state exactly when that state has
a started destination with the event's id. -/
theorem mem_cleanup_cancel (m : MfcState) (id : Nat) :
    Ev.cleanupCancel id ∈ mfc_cleanup m ↔
      ∃ d ∈ m.dests,
        d.fundchannel_start_state = StartState.started ∧ d.id = id := by
  constructor
  · intro h
    rcases List.mem_append.mp h with h' | h'
    · rcases htx : m.txid with _ | t <;> rw [htx] at h'
      · exact absurd h' (List.not_mem_nil _)
      · rcases List.mem_singleton.mp h' with h''
        cases h''
    · rcases List.mem_map.mp h' with ⟨d, hd, heq⟩
      have hid : d.id = id := by cases heq; rfl
      have := List.mem_filter.mp hd
      exact ⟨d, this.1, by simpa using this.2, hid⟩
  · rintro ⟨d, hd, hst, rfl⟩
    refine List.mem_append.mpr (Or.inr ?_)
    exact List.mem_map.mpr ⟨d, List.mem_filter.mpr ⟨hd, by simp [hst]⟩, rfl⟩

/-- A txdiscard event is in the cleanup of a state exactly when that state
holds the event's txid. -/
theorem mem_cleanup_txdiscard (m : MfcState) (t : Nat) :
    Ev.cleanupTxdiscard t ∈ mfc_cleanup m ↔ m.txid = some t := by
  constructor
  · intro h
    rcases List.mem_append.mp h with h' | h'
    · rcases htx : m.txid with _ | t' <;> rw [htx] at h'
      · exact absurd h' (List.not_mem_nil _)
      · rcases List.mem_singleton.mp h' with h''
        cases h''
        rfl
    · rcases List.mem_map.mp h' with ⟨d, _, heq⟩
      cases heq
  · intro h
    rw [mfc_cleanup, h]
    exact List.mem_append.mpr (Or.inl (List.mem_singleton.mpr rfl))

/-- Started pairs in a snapshot come exactly from started destinations. -/
theorem mem_snap_started (m : MfcState) (id : Nat) :
    (id, StartState.started) ∈ (snap m).dests ↔
      ∃ d ∈ m.dests,
        d.fundchannel_start_state = StartState.started ∧ d.id = id := by
  constructor
  · intro h
    rcases List.mem_map.mp h with ⟨d, hd, heq⟩
    injection heq with h1 h2
    exact ⟨d, hd, h2, h1⟩
  · rintro ⟨d, hd, hst, rfl⟩
    exact List.mem_map.mpr ⟨d, hd, by rw [hst]⟩

end Mfc

namespace Mfc

/-- Prepending plain pipeline events preserves the terminal structure. -/
theorem terminal_prepend (evs t : Trace) (hp : Plain evs) (ht : Terminal t) :
    Terminal (evs ++ t) := by
  have happ : ∀ pre : Trace, Plain pre → Plain (evs ++ pre) := by
    intro pre hpre it hit
    rcases List.mem_append.mp hit with h | h
    · exact hp it h
    · exact hpre it h
  rcases ht with ⟨pre, m, e, rfl, hpre⟩ | ⟨pre, m, tx, txid, rfl, hpre⟩ |
    ⟨pre, m, rfl, hpre⟩
  · exact Or.inl ⟨evs ++ pre, m, e, by rw [List.append_assoc], happ pre hpre⟩
  · exact Or.inr (Or.inl ⟨evs ++ pre, m, tx, txid, by rw [List.append_assoc],
      happ pre hpre⟩)
  · exact Or.inr (Or.inr ⟨evs ++ pre, m, by rw [List.append_assoc],
      happ pre hpre⟩)

/-- Prepending one plain pipeline event preserves the terminal structure. -/
theorem terminal_cons (x : Item) (t : Trace) (hx : plainEv x.1 = true)
    (ht : Terminal t) : Terminal (x :: t) :=
  terminal_prepend [x] t
    (by intro it hit; rcases List.mem_singleton.mp hit with rfl; exact hx) ht

/-- Failing terminates the trace. -/
theorem terminal_mfc_fail (m : MfcState) (e : Nat) : Terminal (mfc_fail m e) :=
  Or.inl ⟨[], m, e, (List.nil_append _).symm, by intro it h; cases h⟩

/-- Succeeding terminates the trace. -/
theorem terminal_mfc_finished (m : MfcState) (tx txid : Nat) :
    Terminal (mfc_finished m tx txid) :=
  Or.inr (Or.inl ⟨[], m, tx, txid, (List.nil_append _).symm,
    by intro it h; cases h⟩)

/-- Crashing terminates the trace. -/
theorem terminal_crash (m : MfcState) : Terminal [emit m Ev.crash] :=
  Or.inr (Or.inr ⟨[], m, (List.nil_append _).symm, by intro it h; cases h⟩)

/-- A mapped request-event block is plain. -/
theorem plain_req_map (m : MfcState) (f : Dest → Ev)
    (hf : ∀ d, plainEv (f d) = true) :
    Plain (m.dests.map (fun d => emit m (f d))) := by
  intro it hit
  rcases List.mem_map.mp hit with ⟨d, _, rfl⟩
  exact hf d

/-- perform_txsend ends in a terminal tail. -/
theorem terminal_perform_txsend (env : Env) (m : MfcState) :
    Terminal (perform_txsend env m) := by
  rw [perform_txsend]
  rcases henv : env.txsend with e | r
  · exact terminal_cons _ _ rfl (terminal_mfc_fail _ _)
  · exact terminal_cons _ _ rfl (terminal_mfc_finished _ _ _)

/-- after_fundchannel_complete ends in a terminal tail. -/
theorem terminal_after_fundchannel_complete (env : Env) (m : MfcState) :
    Terminal (after_fundchannel_complete env m) := by
  rw [after_fundchannel_complete]
  rcases hf : m.dests.find?
      (fun d => d.fundchannel_start_state = StartState.complete_failed)
    with _ | d <;> rw [hf]
  · exact terminal_perform_txsend env m
  · exact terminal_mfc_fail _ _

/-- perform_fundchannel_complete ends in a terminal tail. -/
theorem terminal_perform_fundchannel_complete (env : Env) (m : MfcState) :
    Terminal (perform_fundchannel_complete env m) := by
  rw [perform_fundchannel_complete]
  exact terminal_prepend _ _ (plain_req_map m _ (fun _ => rfl))
    (terminal_after_fundchannel_complete env _)

/-- after_txprepare ends in a terminal tail. -/
theorem terminal_after_txprepare (env : Env) (m : MfcState) (res : Tx2Result) :
    Terminal (after_txprepare env m res) := by
  rw [after_txprepare]
  rcases ha : assign_outnums res.outputs m.dests with _ | dests2
  · exact terminal_crash m
  · exact terminal_perform_fundchannel_complete env _

/-- perform_txprepare ends in a terminal tail. -/
theorem terminal_perform_txprepare (env : Env) (m : MfcState) :
    Terminal (perform_txprepare env m) := by
  rw [perform_txprepare]
  rcases henv : env.txprepare2 with e | res
  · exact terminal_cons _ _ rfl (terminal_mfc_fail _ _)
  · exact terminal_cons _ _ rfl (terminal_after_txprepare env _ res)

/-- perform_txmodify ends in a terminal tail. -/
theorem terminal_perform_txmodify (env : Env) (m : MfcState) :
    Terminal (perform_txmodify env m) := by
  rw [perform_txmodify]
  rcases henv : env.txdiscard_err with _ | e
  · exact terminal_cons _ _ rfl (terminal_perform_txprepare env _)
  · exact terminal_cons _ _ rfl (terminal_mfc_fail _ _)

/-- after_fundchannel_start ends in a terminal tail. -/
theorem terminal_after_fundchannel_start (env : Env) (m : MfcState) :
    Terminal (after_fundchannel_start env m) := by
  rw [after_fundchannel_start]
  rcases hf : m.dests.find?
      (fun d => d.fundchannel_start_state = StartState.start_failed)
    with _ | d <;> rw [hf]
  · exact terminal_perform_txmodify env m
  · exact terminal_mfc_fail _ _

/-- perform_fundchannel_start ends in a terminal tail. -/
theorem terminal_perform_fundchannel_start (env : Env) (m : MfcState) :
    Terminal (perform_fundchannel_start env m) := by
  rw [perform_fundchannel_start]
  exact terminal_prepend _ _ (plain_req_map m _ (fun _ => rfl))
    (terminal_after_fundchannel_start env _)

/-- after_dryrun_txprepare ends in a terminal tail. -/
theorem terminal_after_dryrun_txprepare (env : Env) (chainMax : Nat)
    (m : MfcState) (res : DryResult) :
    Terminal (after_dryrun_txprepare env chainMax m res) := by
  rw [after_dryrun_txprepare]
  rcases hr : resolve_dests chainMax res.outputs m.dests with _ | dests2
  · exact terminal_crash m
  · exact terminal_perform_fundchannel_start env _

/-- perform_dryrun_txprepare ends in a terminal tail. -/
theorem terminal_perform_dryrun_txprepare (env : Env) (chainMax : Nat)
    (m : MfcState) : Terminal (perform_dryrun_txprepare env chainMax m) := by
  rw [perform_dryrun_txprepare]
  rcases henv : env.dryrun with e | res
  · exact terminal_cons _ _ rfl (terminal_mfc_fail _ _)
  · exact terminal_cons _ _ rfl (terminal_after_dryrun_txprepare env chainMax _ res)

/-- after_multiconnect ends in a terminal tail. -/
theorem terminal_after_multiconnect (env : Env) (chainMax : Nat)
    (m : MfcState) (features : List Bool) :
    Terminal (after_multiconnect env chainMax m features) := by
  rw [after_multiconnect]
  by_cases hlen : features.length ≠ m.dests.length
  · rw [if_pos hlen]; exact terminal_crash m
  · rw [if_neg hlen]
    by_cases hdup : hasDup (((m.dests.zip features).map
        (fun df => { df.1 with large_channels := df.2 })).map (fun d => d.id))
    · simp only [hdup, if_true]
      exact terminal_mfc_fail _ _
    · simp only [hdup, if_false, Bool.false_eq_true]
      exact terminal_perform_dryrun_txprepare env chainMax _

/-- perform_multiconnect ends in a terminal tail. -/
theorem terminal_perform_multiconnect (env : Env) (chainMax : Nat)
    (m : MfcState) : Terminal (perform_multiconnect env chainMax m) := by
  rw [perform_multiconnect]
  rcases henv : env.connect with e | fs
  · exact terminal_cons _ _ rfl (terminal_mfc_fail _ _)
  · exact terminal_cons _ _ rfl (terminal_after_multiconnect env chainMax m fs)

/-- Every multifundchannel execution trace is a plain pipeline prefix
followed by exactly one terminal tail. -/
theorem terminal_json_multifundchannel (env : Env) (chainMax : Nat)
    (inputs : List DestInput) :
    Terminal (json_multifundchannel env chainMax inputs) := by
  rw [json_multifundchannel]
  by_cases h1 : inputs.length = 0
  · rw [if_pos h1]; exact terminal_mfc_fail _ _
  · rw [if_neg h1]
    by_cases h2 : 2 ≤ countAll inputs
    · rw [if_pos h2]; exact terminal_mfc_fail _ _
    · rw [if_neg h2]
      by_cases h3 : (countAll inputs = 1 && decide (1 < inputs.length)) = true
      · simp only [h3, if_true]
        exact terminal_mfc_fail _ _
      · simp only [h3, if_false, Bool.false_eq_true]
        exact terminal_perform_multiconnect env chainMax _

end Mfc

namespace Mfc

/-- If every element before the final one is a non-reply, any decomposition
around a reply item must place it last. -/
theorem reply_last_decomp :
    ∀ (xs pre : Trace) (r item : Item) (post : Trace),
      (∀ it ∈ xs, isReply it.1 = false) → isReply item.1 = true →
      xs ++ [r] = pre ++ item :: post → pre = xs ∧ item = r ∧ post = [] := by
  intro xs
  induction xs with
  | nil =>
    intro pre r item post _ hitem heq
    cases pre with
    | nil =>
      simp only [List.nil_append] at heq
      have h1 : r = item ∧ [] = post := by
        have := List.cons.injEq r [] item post ▸ heq
        exact ⟨(List.cons.inj heq).1, (List.cons.inj heq).2⟩
      exact ⟨rfl, h1.1.symm, h1.2.symm⟩
    | cons b pre' =>
      simp only [List.nil_append, List.cons_append] at heq
      have h2 := (List.cons.inj heq).2
      exact absurd h2.symm (by simp)
  | cons x xs' ih =>
    intro pre r item post hxs hitem heq
    cases pre with
    | nil =>
      simp only [List.cons_append, List.nil_append] at heq
      have h1 := (List.cons.inj heq).1
      have := hxs x (List.mem_cons_self _ _)
      rw [← h1] at hitem
      rw [hitem] at this
      cases this
    | cons b pre' =>
      simp only [List.cons_append] at heq
      have h1 := (List.cons.inj heq).1
      have h2 := (List.cons.inj heq).2
      have := ih pre' r item post
        (fun it hit => hxs it (List.mem_cons_of_mem _ hit)) hitem h2
      exact ⟨by rw [← h1, this.1], this.2.1, this.2.2⟩

/-- Claim C1: when multifundchannel delivers an error reply, the cleanup
has already run: the reply is the final event; a cleanup txdiscard was
issued before it exactly when a txid was still reserved; a cancel was
issued before it for every destination in state started; and every cancel
or cleanup txdiscard anywhere in the trace belongs to that cleanup, so
cancels go to exactly the started destinations. -/
theorem mfc_error_reply_after_cleanup (env : Env) (chainMax : Nat)
    (inputs : List DestInput) (pre post : Trace) (e : Nat) (s : Snap)
    (h : json_multifundchannel env chainMax inputs
      = pre ++ (Ev.replyErr e, s) :: post) :
    post = [] ∧
    (∀ t, s.txid = some t → (Ev.cleanupTxdiscard t, s) ∈ pre) ∧
    (∀ id, (id, StartState.started) ∈ s.dests →
      (Ev.cleanupCancel id, s) ∈ pre) ∧
    (∀ id s', (Ev.cleanupCancel id, s')
        ∈ json_multifundchannel env chainMax inputs →
      s' = s ∧ (id, StartState.started) ∈ s.dests) ∧
    (∀ t s', (Ev.cleanupTxdiscard t, s')
        ∈ json_multifundchannel env chainMax inputs →
      s' = s ∧ s.txid = some t) := by
  have hterm := terminal_json_multifundchannel env chainMax inputs
  have hmem : (Ev.replyErr e, s) ∈ json_multifundchannel env chainMax inputs := by
    rw [h]; exact List.mem_append.mpr (Or.inr (List.mem_cons_self _ _))
  rcases hterm with ⟨pre', m, e', heqt, hplain⟩ |
    ⟨pre', m, tx, txid, heqt, hplain⟩ | ⟨pre', m, heqt, hplain⟩
  · -- the error-reply terminal
    have heqt' : json_multifundchannel env chainMax inputs
        = (pre' ++ (mfc_cleanup m).map (emit m))
            ++ [emit m (Ev.replyErr e')] := by
      rw [heqt, mfc_fail, List.append_assoc]
    have hxs : ∀ it ∈ pre' ++ (mfc_cleanup m).map (emit m),
        isReply it.1 = false := by
      intro it hit
      rcases List.mem_append.mp hit with h' | h'
      · exact plain_not_reply _ (hplain it h')
      · rcases List.mem_map.mp h' with ⟨ev, hev, rfl⟩
        exact cleanup_not_reply m ev hev
    have hdec := reply_last_decomp (pre' ++ (mfc_cleanup m).map (emit m)) pre
      (emit m (Ev.replyErr e')) (Ev.replyErr e, s) post hxs rfl
      (heqt'.symm.trans h)
    obtain ⟨hpre, hitem, hpost⟩ := hdec
    have hs : s = snap m := congrArg Prod.snd hitem
    have he : e = e' := by
      have := congrArg Prod.fst hitem
      injection this
    refine ⟨hpost, ?_, ?_, ?_, ?_⟩
    · intro t ht
      have hmtx : m.txid = some t := by
        rw [hs] at ht; exact ht
      have hcl : Ev.cleanupTxdiscard t ∈ mfc_cleanup m :=
        (mem_cleanup_txdiscard m t).mpr hmtx
      rw [hpre, hs]
      exact List.mem_append.mpr (Or.inr (List.mem_map.mpr ⟨_, hcl, rfl⟩))
    · intro id hid
      rw [hs] at hid
      have hcl : Ev.cleanupCancel id ∈ mfc_cleanup m :=
        (mem_cleanup_cancel m id).mpr ((mem_snap_started m id).mp hid)
      rw [hpre, hs]
      exact List.mem_append.mpr (Or.inr (List.mem_map.mpr ⟨_, hcl, rfl⟩))
    · intro id s' hmem'
      rw [heqt'] at hmem'
      rcases List.mem_append.mp hmem' with h' | h'
      · rcases List.mem_append.mp h' with h'' | h''
        · have := hplain _ h''
          simp [plainEv] at this
        · rcases List.mem_map.mp h'' with ⟨ev, hev, heq''⟩
          have hev' : ev = Ev.cleanupCancel id := congrArg Prod.fst heq''
          have hs' : s' = snap m := (congrArg Prod.snd heq'').symm
          rw [hev'] at hev
          exact ⟨hs'.trans hs.symm,
            hs ▸ (mem_snap_started m id).mpr ((mem_cleanup_cancel m id).mp hev)⟩
      · rcases List.mem_singleton.mp h' with heq''
        have := congrArg Prod.fst heq''
        cases this
    · intro t s' hmem'
      rw [heqt'] at hmem'
      rcases List.mem_append.mp hmem' with h' | h'
      · rcases List.mem_append.mp h' with h'' | h''
        · have := hplain _ h''
          simp [plainEv] at this
        · rcases List.mem_map.mp h'' with ⟨ev, hev, heq''⟩
          have hev' : ev = Ev.cleanupTxdiscard t := congrArg Prod.fst heq''
          have hs' : s' = snap m := (congrArg Prod.snd heq'').symm
          rw [hev'] at hev
          have hmtx := (mem_cleanup_txdiscard m t).mp hev
          refine ⟨hs'.trans hs.symm, ?_⟩
          rw [hs]; exact hmtx
      · rcases List.mem_singleton.mp h' with heq''
        have := congrArg Prod.fst heq''
        cases this
  · -- a success terminal cannot contain an error reply
    exfalso
    rw [heqt] at hmem
    rcases List.mem_append.mp hmem with h' | h'
    · have := hplain _ h'
      simp [plainEv] at this
    · rcases List.mem_append.mp h' with h'' | h''
      · rcases List.mem_map.mp h'' with ⟨ev, hev, heq''⟩
        have hev' : ev = Ev.replyErr e := congrArg Prod.fst heq''
        have := cleanup_not_reply m ev hev
        rw [hev'] at this
        simp [isReply] at this
      · rcases List.mem_singleton.mp h'' with heq''
        have := congrArg Prod.fst heq''
        cases this
  · -- a crash terminal cannot contain an error reply
    exfalso
    rw [heqt] at hmem
    rcases List.mem_append.mp hmem with h' | h'
    · have := hplain _ h'
      simp [plainEv] at this
    · rcases List.mem_singleton.mp h' with heq''
      have := congrArg Prod.fst heq''
      cases this

end Mfc

namespace Mfc

/-- Witness for the C1 theorem: a two-destination command where one
fundchannel_complete fails; the cleanup before the error reply cancels
exactly the still-started destination. -/
theorem mfc_error_reply_after_cleanup_witness :
    (Ev.cleanupCancel 2,
      (⟨[(1, StartState.complete_failed), (2, StartState.started)],
        some 200⟩ : Snap)) ∈
      ([(Ev.connectReq,
          ⟨[(1, StartState.not_yet), (2, StartState.not_yet)], none⟩),
        (Ev.txprepareReq true,
          ⟨[(1, StartState.not_yet), (2, StartState.not_yet)], none⟩),
        (Ev.fundchannelStartReq 1,
          ⟨[(1, StartState.not_yet), (2, StartState.not_yet)], some 100⟩),
        (Ev.fundchannelStartReq 2,
          ⟨[(1, StartState.not_yet), (2, StartState.not_yet)], some 100⟩),
        (Ev.txdiscardReq 100,
          ⟨[(1, StartState.started), (2, StartState.started)], none⟩),
        (Ev.txprepareReq false,
          ⟨[(1, StartState.started), (2, StartState.started)], none⟩),
        (Ev.fundchannelCompleteReq 1,
          ⟨[(1, StartState.started), (2, StartState.started)], some 200⟩),
        (Ev.fundchannelCompleteReq 2,
          ⟨[(1, StartState.started), (2, StartState.started)], some 200⟩),
        (Ev.cleanupTxdiscard 200,
          ⟨[(1, StartState.complete_failed), (2, StartState.started)],
            some 200⟩),
        (Ev.cleanupCancel 2,
          ⟨[(1, StartState.complete_failed), (2, StartState.started)],
            some 200⟩)] : Trace) :=
  ((mfc_error_reply_after_cleanup
    { connect := Except.ok [false, false],
      dryrun := Except.ok ⟨100, [(1, 5000), (2, 6000)]⟩,
      fundchannel_start := fun id => Except.ok (70 + id),
      txdiscard_err := none,
      txprepare2 := Except.ok ⟨200, [71, 72]⟩,
      fundchannel_complete := fun id =>
        if id = 1 then Except.error 9 else Except.ok 88,
      txsend := Except.ok (3, 4) } 1000000
    [⟨1, some 5000⟩, ⟨2, some 6000⟩]
    [(Ev.connectReq,
        ⟨[(1, StartState.not_yet), (2, StartState.not_yet)], none⟩),
      (Ev.txprepareReq true,
        ⟨[(1, StartState.not_yet), (2, StartState.not_yet)], none⟩),
      (Ev.fundchannelStartReq 1,
        ⟨[(1, StartState.not_yet), (2, StartState.not_yet)], some 100⟩),
      (Ev.fundchannelStartReq 2,
        ⟨[(1, StartState.not_yet), (2, StartState.not_yet)], some 100⟩),
      (Ev.txdiscardReq 100,
        ⟨[(1, StartState.started), (2, StartState.started)], none⟩),
      (Ev.txprepareReq false,
        ⟨[(1, StartState.started), (2, StartState.started)], none⟩),
      (Ev.fundchannelCompleteReq 1,
        ⟨[(1, StartState.started), (2, StartState.started)], some 200⟩),
      (Ev.fundchannelCompleteReq 2,
        ⟨[(1, StartState.started), (2, StartState.started)], some 200⟩),
      (Ev.cleanupTxdiscard 200,
        ⟨[(1, StartState.complete_failed), (2, StartState.started)],
          some 200⟩),
      (Ev.cleanupCancel 2,
        ⟨[(1, StartState.complete_failed), (2, StartState.started)],
          some 200⟩)]
    [] 9
    ⟨[(1, StartState.complete_failed), (2, StartState.started)], some 200⟩
    (by decide)).2.2.1 2 (by decide))

end Mfc

namespace Mfc

/-- Prepending pipeline items preserves the phase structure. -/
theorem mfcsplit_prepend (evs t : Trace)
    (hevs : ∀ it ∈ evs, PipelineItem it) (ht : MfcSplit t) :
    MfcSplit (evs ++ t) := by
  rcases ht with ⟨t1, t2, rfl, h1, h2, h3, h4⟩
  refine ⟨evs ++ t1, t2, by rw [List.append_assoc], ?_, h2, h3, ?_⟩
  · intro it hit
    rcases List.mem_append.mp hit with h' | h'
    · exact ⟨(hevs it h').1, (hevs it h').2.1⟩
    · exact h1 it h'
  · intro hne id s' hmem
    rcases List.mem_append.mp hmem with h' | h'
    · exact (hevs _ h').2.2 id rfl
    · exact h4 hne id s' h'

/-- Every item of a failure tail carries the failing state's snapshot. -/
theorem mem_mfc_fail_snap (m : MfcState) (e : Nat) (it : Item)
    (h : it ∈ mfc_fail m e) : it.2 = snap m := by
  rcases List.mem_append.mp h with h' | h'
  · rcases List.mem_map.mp h' with ⟨ev, _, rfl⟩
    rfl
  · rcases List.mem_singleton.mp h' with rfl
    rfl

/-- Every item of a success tail carries the finishing state's snapshot. -/
theorem mem_mfc_finished_snap (m : MfcState) (tx txid : Nat) (it : Item)
    (h : it ∈ mfc_finished m tx txid) : it.2 = snap m := by
  rcases List.mem_append.mp h with h' | h'
  · rcases List.mem_map.mp h' with ⟨ev, _, rfl⟩
    rfl
  · rcases List.mem_singleton.mp h' with rfl
    rfl

/-- No failure-tail item is a txsend request. -/
theorem mem_mfc_fail_not_txsend (m : MfcState) (e : Nat) (it : Item)
    (h : it ∈ mfc_fail m e) : NotTxsend it := by
  rcases List.mem_append.mp h with h' | h'
  · rcases List.mem_map.mp h' with ⟨ev, hev, rfl⟩
    exact cleanup_not_txsend m ev hev
  · rcases List.mem_singleton.mp h' with rfl
    intro x hx; cases hx

/-- The snapshot of a state with no done destination shows none done. -/
theorem snap_nodone (m : MfcState) (hm : NoDoneState m) (it : Item)
    (hit : it.2 = snap m) : NoDoneSnap it := by
  intro pr hpr
  rw [hit] at hpr
  rcases List.mem_map.mp hpr with ⟨d, hd, rfl⟩
  exact hm d hd

/-- Failing from a state with no done destination keeps the whole tail in
the pre-broadcast phase. -/
theorem mfcsplit_mfc_fail (m : MfcState) (e : Nat) (hm : NoDoneState m) :
    MfcSplit (mfc_fail m e) := by
  refine ⟨mfc_fail m e, [], (List.append_nil _).symm, ?_, ?_, ?_, ?_⟩
  · intro it hit
    exact ⟨snap_nodone m hm it (mem_mfc_fail_snap m e it hit),
      mem_mfc_fail_not_txsend m e it hit⟩
  · intro it hit; cases hit
  · intro id s' hmem; cases hmem
  · intro hne; exact absurd rfl hne

/-- Crashing from a state with no done destination keeps the whole tail in
the pre-broadcast phase. -/
theorem mfcsplit_crash (m : MfcState) (hm : NoDoneState m) :
    MfcSplit [emit m Ev.crash] := by
  refine ⟨[emit m Ev.crash], [], (List.append_nil _).symm, ?_, ?_, ?_, ?_⟩
  · intro it hit
    rcases List.mem_singleton.mp hit with rfl
    exact ⟨snap_nodone m hm _ rfl, fun x hx => by cases hx⟩
  · intro it hit; cases hit
  · intro id s' hmem; cases hmem
  · intro hne; exact absurd rfl hne

/-- Cleanup of a state with no reserved txid and all destinations done is
empty. -/
theorem cleanup_done_empty (m : MfcState) (h1 : m.txid = none)
    (h2 : ∀ d ∈ m.dests, d.fundchannel_start_state = StartState.done) :
    mfc_cleanup m = [] := by
  have hf : m.dests.filter
      (fun d => d.fundchannel_start_state = StartState.started) = [] := by
    rw [List.filter_eq_nil_iff]
    intro d hd
    rw [h2 d hd]
    simp
  rw [mfc_cleanup, h1, hf]
  rfl

/-- perform_txsend enters and stays in the broadcast phase: every snapshot
from the txsend request on shows all destinations done, and no cancel is
ever issued afterwards. -/
theorem mfcsplit_perform_txsend (env : Env) (m : MfcState) :
    MfcSplit (perform_txsend env m) := by
  rw [perform_txsend]
  have hdone : ∀ d ∈ m.dests.map
      (fun d => { d with fundchannel_start_state := StartState.done }),
      d.fundchannel_start_state = StartState.done := by
    intro d hd
    rcases List.mem_map.mp hd with ⟨d', _, rfl⟩
    rfl
  have hsnapdone : ∀ it : Item,
      it.2 = snap ⟨m.dests.map
        (fun d => { d with fundchannel_start_state := StartState.done }),
        none⟩ → AllDoneSnap it := by
    intro it hit pr hpr
    rw [hit] at hpr
    rcases List.mem_map.mp hpr with ⟨d, hd, rfl⟩
    exact hdone d hd
  have hclean : mfc_cleanup ⟨m.dests.map
      (fun d => { d with fundchannel_start_state := StartState.done }),
      none⟩ = [] := cleanup_done_empty _ rfl hdone
  refine ⟨[], _, (List.nil_append _).symm, ?_, ?_, ?_, ?_⟩
  · intro it hit; cases hit
  · intro it hit
    rcases List.mem_cons.mp hit with rfl | h'
    · exact hsnapdone _ rfl
    · rcases henv : env.txsend with e | r <;> rw [henv] at h'
      · exact hsnapdone _ (mem_mfc_fail_snap _ e _ h')
      · exact hsnapdone _ (mem_mfc_finished_snap _ r.1 r.2 _ h')
  · intro id s' hmem
    rcases List.mem_cons.mp hmem with heq | h'
    · cases congrArg Prod.fst heq
    · rcases henv : env.txsend with e | r <;> rw [henv] at h'
      · simp only [mfc_fail, hclean, List.map_nil, List.nil_append] at h'
        rcases List.mem_singleton.mp h' with heq
        cases congrArg Prod.fst heq
      · simp only [after_txsend, mfc_finished, hclean, List.map_nil,
          List.nil_append] at h'
        rcases List.mem_singleton.mp h' with heq
        cases congrArg Prod.fst heq
  · intro _ id s' hmem; cases hmem

end Mfc

namespace Mfc

/-- The fundchannel_start spark result is never done. -/
theorem start_result_not_done (env : Env) (d : Dest) :
    (fundchannel_start_result env d).fundchannel_start_state
      ≠ StartState.done := by
  rw [fundchannel_start_result]
  rcases env.fundchannel_start d.id with e | script <;> intro h <;> cases h

/-- The fundchannel_complete spark result is done only if its input was. -/
theorem complete_result_not_done (env : Env) (d : Dest)
    (hd : d.fundchannel_start_state ≠ StartState.done) :
    (fundchannel_complete_result env d).fundchannel_start_state
      ≠ StartState.done := by
  rw [fundchannel_complete_result]
  rcases env.fundchannel_complete d.id with e | cid
  · intro h; cases h
  · exact hd

/-- Amount resolution preserves every destination's state. -/
theorem resolve_dests_states (chainMax : Nat) (outputs : List (Nat × Nat)) :
    ∀ (l l' : List Dest), resolve_dests chainMax outputs l = some l' →
      ∀ d' ∈ l', ∃ d ∈ l,
        d'.fundchannel_start_state = d.fundchannel_start_state := by
  intro l
  induction l with
  | nil =>
    intro l' h d' hd'
    rw [resolve_dests] at h
    cases h
    cases hd'
  | cons d rest ih =>
    intro l' h d' hd'
    rw [resolve_dests] at h
    rcases hr1 : resolve_dest chainMax outputs d with _ | d1 <;>
      rw [hr1] at h
    · cases h
    · rcases hr2 : resolve_dests chainMax outputs rest with _ | rest' <;>
        rw [hr2] at h
      · cases h
      · cases h
        rcases List.mem_cons.mp hd' with rfl | h'
        · refine ⟨d, List.mem_cons_self _ _, ?_⟩
          rw [resolve_dest] at hr1
          rcases hf : outputs.find? (fun o => o.1 = placeholder_addr d.id)
            with _ | o <;> rw [hf] at hr1
          · cases hr1
          · cases hr1; rfl
        · rcases ih rest' hr2 d' h' with ⟨d0, hd0, heq⟩
          exact ⟨d0, List.mem_cons_of_mem _ hd0, heq⟩

/-- Output matching preserves every destination's state. -/
theorem assign_outnums_states (outputs : List Nat) :
    ∀ (l l' : List Dest), assign_outnums outputs l = some l' →
      ∀ d' ∈ l', ∃ d ∈ l,
        d'.fundchannel_start_state = d.fundchannel_start_state := by
  intro l
  induction l with
  | nil =>
    intro l' h d' hd'
    rw [assign_outnums] at h
    cases h
    cases hd'
  | cons d rest ih =>
    intro l' h d' hd'
    rw [assign_outnums] at h
    rcases hf : outputs.findIdx? (fun s => d.funding_script = some s)
      with _ | o <;> rw [hf] at h
    · cases h
    · rcases hr : assign_outnums outputs rest with _ | rest' <;> rw [hr] at h
      · cases h
      · cases h
        rcases List.mem_cons.mp hd' with rfl | h'
        · exact ⟨d, List.mem_cons_self _ _, rfl⟩
        · rcases ih rest' hr d' h' with ⟨d0, hd0, heq⟩
          exact ⟨d0, List.mem_cons_of_mem _ hd0, heq⟩

/-- after_fundchannel_complete keeps the phase structure. -/
theorem mfcsplit_after_fundchannel_complete (env : Env) (m : MfcState)
    (hm : NoDoneState m) : MfcSplit (after_fundchannel_complete env m) := by
  rw [after_fundchannel_complete]
  rcases hf : m.dests.find?
      (fun d => d.fundchannel_start_state = StartState.complete_failed)
    with _ | d <;> rw [hf]
  · exact mfcsplit_perform_txsend env m
  · exact mfcsplit_mfc_fail m _ hm

/-- perform_fundchannel_complete keeps the phase structure. -/
theorem mfcsplit_perform_fundchannel_complete (env : Env) (m : MfcState)
    (hm : NoDoneState m) : MfcSplit (perform_fundchannel_complete env m) := by
  rw [perform_fundchannel_complete]
  refine mfcsplit_prepend _ _ ?_ ?_
  · intro it hit
    rcases List.mem_map.mp hit with ⟨d, _, rfl⟩
    refine ⟨snap_nodone m hm _ rfl, ?_, ?_⟩
    · intro x hx; cases hx
    · intro id hx; cases hx
  · refine mfcsplit_after_fundchannel_complete env _ ?_
    intro d hd
    rcases List.mem_map.mp hd with ⟨d', hd', rfl⟩
    exact complete_result_not_done env d' (hm d' hd')

/-- after_txprepare keeps the phase structure. -/
theorem mfcsplit_after_txprepare (env : Env) (m : MfcState) (res : Tx2Result)
    (hm : NoDoneState m) : MfcSplit (after_txprepare env m res) := by
  rw [after_txprepare]
  rcases ha : assign_outnums res.outputs m.dests with _ | dests2
  · exact mfcsplit_crash m hm
  · refine mfcsplit_perform_fundchannel_complete env _ ?_
    intro d hd
    rcases assign_outnums_states res.outputs m.dests dests2 ha d hd
      with ⟨d0, hd0, heq⟩
    rw [heq]
    exact hm d0 hd0

/-- perform_txprepare keeps the phase structure. -/
theorem mfcsplit_perform_txprepare (env : Env) (m : MfcState)
    (hm : NoDoneState m) : MfcSplit (perform_txprepare env m) := by
  rw [perform_txprepare]
  have hitem : PipelineItem (emit m (Ev.txprepareReq false)) := by
    refine ⟨snap_nodone m hm _ rfl, ?_, ?_⟩
    · intro x hx; cases hx
    · intro id hx; cases hx
  rcases henv : env.txprepare2 with e | res
  · exact mfcsplit_prepend [_] _
      (fun it hit => by rcases List.mem_singleton.mp hit with rfl; exact hitem)
      (mfcsplit_mfc_fail m e hm)
  · exact mfcsplit_prepend [_] _
      (fun it hit => by rcases List.mem_singleton.mp hit with rfl; exact hitem)
      (mfcsplit_after_txprepare env _ res hm)

/-- perform_txmodify keeps the phase structure. -/
theorem mfcsplit_perform_txmodify (env : Env) (m : MfcState)
    (hm : NoDoneState m) : MfcSplit (perform_txmodify env m) := by
  rw [perform_txmodify]
  have hm1 : NoDoneState ⟨m.dests, none⟩ := hm
  have hitem : PipelineItem
      (emit (⟨m.dests, none⟩ : MfcState) (Ev.txdiscardReq (m.txid.getD 0))) := by
    refine ⟨snap_nodone _ hm1 _ rfl, ?_, ?_⟩
    · intro x hx; cases hx
    · intro id hx; cases hx
  rcases henv : env.txdiscard_err with _ | e
  · exact mfcsplit_prepend [_] _
      (fun it hit => by rcases List.mem_singleton.mp hit with rfl; exact hitem)
      (mfcsplit_perform_txprepare env _ hm1)
  · exact mfcsplit_prepend [_] _
      (fun it hit => by rcases List.mem_singleton.mp hit with rfl; exact hitem)
      (mfcsplit_mfc_fail _ e hm1)

/-- after_fundchannel_start keeps the phase structure. -/
theorem mfcsplit_after_fundchannel_start (env : Env) (m : MfcState)
    (hm : NoDoneState m) : MfcSplit (after_fundchannel_start env m) := by
  rw [after_fundchannel_start]
  rcases hf : m.dests.find?
      (fun d => d.fundchannel_start_state = StartState.start_failed)
    with _ | d <;> rw [hf]
  · exact mfcsplit_perform_txmodify env m hm
  · exact mfcsplit_mfc_fail m _ hm

/-- perform_fundchannel_start keeps the phase structure. -/
theorem mfcsplit_perform_fundchannel_start (env : Env) (m : MfcState)
    (hm : NoDoneState m) : MfcSplit (perform_fundchannel_start env m) := by
  rw [perform_fundchannel_start]
  refine mfcsplit_prepend _ _ ?_ ?_
  · intro it hit
    rcases List.mem_map.mp hit with ⟨d, _, rfl⟩
    refine ⟨snap_nodone m hm _ rfl, ?_, ?_⟩
    · intro x hx; cases hx
    · intro id hx; cases hx
  · refine mfcsplit_after_fundchannel_start env _ ?_
    intro d hd
    rcases List.mem_map.mp hd with ⟨d', _, rfl⟩
    exact start_result_not_done env d'

/-- after_dryrun_txprepare keeps the phase structure. -/
theorem mfcsplit_after_dryrun_txprepare (env : Env) (chainMax : Nat)
    (m : MfcState) (res : DryResult) (hm : NoDoneState m) :
    MfcSplit (after_dryrun_txprepare env chainMax m res) := by
  rw [after_dryrun_txprepare]
  rcases hr : resolve_dests chainMax res.outputs m.dests with _ | dests2
  · exact mfcsplit_crash m hm
  · refine mfcsplit_perform_fundchannel_start env _ ?_
    intro d hd
    rcases resolve_dests_states chainMax res.outputs m.dests dests2 hr d hd
      with ⟨d0, hd0, heq⟩
    rw [heq]
    exact hm d0 hd0

/-- perform_dryrun_txprepare keeps the phase structure. -/
theorem mfcsplit_perform_dryrun_txprepare (env : Env) (chainMax : Nat)
    (m : MfcState) (hm : NoDoneState m) :
    MfcSplit (perform_dryrun_txprepare env chainMax m) := by
  rw [perform_dryrun_txprepare]
  have hitem : PipelineItem (emit m (Ev.txprepareReq true)) := by
    refine ⟨snap_nodone m hm _ rfl, ?_, ?_⟩
    · intro x hx; cases hx
    · intro id hx; cases hx
  rcases henv : env.dryrun with e | res
  · exact mfcsplit_prepend [_] _
      (fun it hit => by rcases List.mem_singleton.mp hit with rfl; exact hitem)
      (mfcsplit_mfc_fail m e hm)
  · exact mfcsplit_prepend [_] _
      (fun it hit => by rcases List.mem_singleton.mp hit with rfl; exact hitem)
      (mfcsplit_after_dryrun_txprepare env chainMax _ res hm)

/-- after_multiconnect keeps the phase structure. -/
theorem mfcsplit_after_multiconnect (env : Env) (chainMax : Nat)
    (m : MfcState) (features : List Bool) (hm : NoDoneState m) :
    MfcSplit (after_multiconnect env chainMax m features) := by
  rw [after_multiconnect]
  by_cases hlen : features.length ≠ m.dests.length
  · rw [if_pos hlen]
    exact mfcsplit_crash m hm
  · rw [if_neg hlen]
    have hm1 : NoDoneState ⟨(m.dests.zip features).map
        (fun df => { df.1 with large_channels := df.2 }), m.txid⟩ := by
      intro d hd
      rcases List.mem_map.mp hd with ⟨df, hdf, rfl⟩
      exact hm df.1 (List.of_mem_zip hdf).1
    by_cases hdup : hasDup (((m.dests.zip features).map
        (fun df => { df.1 with large_channels := df.2 })).map (fun d => d.id))
    · simp only [hdup, if_true]
      exact mfcsplit_mfc_fail _ _ hm1
    · simp only [hdup, if_false, Bool.false_eq_true]
      exact mfcsplit_perform_dryrun_txprepare env chainMax _ hm1

/-- perform_multiconnect keeps the phase structure. -/
theorem mfcsplit_perform_multiconnect (env : Env) (chainMax : Nat)
    (m : MfcState) (hm : NoDoneState m) :
    MfcSplit (perform_multiconnect env chainMax m) := by
  rw [perform_multiconnect]
  have hitem : PipelineItem (emit m Ev.connectReq) := by
    refine ⟨snap_nodone m hm _ rfl, ?_, ?_⟩
    · intro x hx; cases hx
    · intro id hx; cases hx
  rcases henv : env.connect with e | fs
  · exact mfcsplit_prepend [_] _
      (fun it hit => by rcases List.mem_singleton.mp hit with rfl; exact hitem)
      (mfcsplit_mfc_fail m e hm)
  · exact mfcsplit_prepend [_] _
      (fun it hit => by rcases List.mem_singleton.mp hit with rfl; exact hitem)
      (mfcsplit_after_multiconnect env chainMax m fs hm)

/-- Every multifundchannel trace has the phase structure. -/
theorem mfcsplit_json_multifundchannel (env : Env) (chainMax : Nat)
    (inputs : List DestInput) :
    MfcSplit (json_multifundchannel env chainMax inputs) := by
  rw [json_multifundchannel]
  have hm0 : NoDoneState ⟨inputs.map init_dest, none⟩ := by
    intro d hd
    rcases List.mem_map.mp hd with ⟨di, _, rfl⟩
    intro h; cases h
  by_cases h1 : inputs.length = 0
  · rw [if_pos h1]; exact mfcsplit_mfc_fail _ _ hm0
  · rw [if_neg h1]
    by_cases h2 : 2 ≤ countAll inputs
    · rw [if_pos h2]; exact mfcsplit_mfc_fail _ _ hm0
    · rw [if_neg h2]
      by_cases h3 : (countAll inputs = 1 && decide (1 < inputs.length)) = true
      · simp only [h3, if_true]
        exact mfcsplit_mfc_fail _ _ hm0
      · simp only [h3, if_false, Bool.false_eq_true]
        exact mfcsplit_perform_multiconnect env chainMax _ hm0

end Mfc

namespace Mfc

/-- In a concatenation whose first part satisfies P and second part Q, an
element violating P lies in the second part, and so does everything after
it. -/
theorem split_skip {α : Type} (P Q : α → Prop) :
    ∀ (t1 t2 pre1 : List α) (it1 : α) (mid : List α) (it2 : α) (post : List α),
      t1 ++ t2 = pre1 ++ it1 :: (mid ++ it2 :: post) →
      (∀ x ∈ t1, P x) → (∀ x ∈ t2, Q x) → ¬ P it1 → Q it2 := by
  intro t1
  induction t1 with
  | nil =>
    intro t2 pre1 it1 mid it2 post heq h1 h2 _
    apply h2
    rw [List.nil_append] at heq
    rw [heq]
    refine List.mem_append.mpr (Or.inr (List.mem_cons_of_mem _ ?_))
    exact List.mem_append.mpr (Or.inr (List.mem_cons_self _ _))
  | cons a t1' ih =>
    intro t2 pre1 it1 mid it2 post heq h1 h2 hnp
    cases pre1 with
    | nil =>
      rw [List.nil_append] at heq
      rw [List.cons_append] at heq
      have h1' := (List.cons.inj heq).1
      exact absurd (h1' ▸ h1 a (List.mem_cons_self _ _)) hnp
    | cons b pre1' =>
      rw [List.cons_append, List.cons_append] at heq
      have h2' := (List.cons.inj heq).2
      exact ih t2 pre1' it1 mid it2 post (by simpa using h2')
        (fun x hx => h1 x (List.mem_cons_of_mem _ hx)) h2 hnp

/-- Claim C2: every destination's state is set to done strictly before the
txsend request is issued (the request's snapshot shows all destinations
done); no destination ever moves from done back to started anywhere in the
trace; and when the broadcast stage is reached, no fundchannel_cancel is
ever issued, in particular the cleanup before a broadcast-failure reply
cancels nothing. -/
theorem mfc_done_before_txsend (env : Env) (chainMax : Nat)
    (inputs : List DestInput) :
    (∀ t s, (Ev.txsendReq t, s) ∈ json_multifundchannel env chainMax inputs →
      ∀ pr ∈ s.dests, pr.2 = StartState.done) ∧
    (∀ pre1 it1 mid it2 post,
      json_multifundchannel env chainMax inputs
        = pre1 ++ it1 :: (mid ++ it2 :: post) →
      ∀ id, (id, StartState.done) ∈ it1.2.dests →
        (id, StartState.started) ∉ it2.2.dests) ∧
    (∀ t s, (Ev.txsendReq t, s) ∈ json_multifundchannel env chainMax inputs →
      ∀ id s', (Ev.cleanupCancel id, s')
        ∉ json_multifundchannel env chainMax inputs) := by
  obtain ⟨t1, t2, heq, h1, h2, h3, h4⟩ :=
    mfcsplit_json_multifundchannel env chainMax inputs
  have htx2 : ∀ t s, (Ev.txsendReq t, s)
      ∈ json_multifundchannel env chainMax inputs →
      (Ev.txsendReq t, s) ∈ t2 := by
    intro t s hmem
    rw [heq] at hmem
    rcases List.mem_append.mp hmem with h' | h'
    · exact absurd rfl ((h1 _ h').2 t)
    · exact h'
  refine ⟨?_, ?_, ?_⟩
  · intro t s hmem pr hpr
    exact h2 _ (htx2 t s hmem) pr hpr
  · intro pre1 it1 mid it2 post hdec id hdone hstarted
    have hq : AllDoneSnap it2 := by
      refine split_skip (fun it => NoDoneSnap it ∧ NotTxsend it) AllDoneSnap
        t1 t2 pre1 it1 mid it2 post (heq.symm.trans hdec) h1 h2 ?_
      intro hP
      exact hP.1 (id, StartState.done) hdone rfl
    have := hq (id, StartState.started) hstarted
    cases this
  · intro t s hmem id s' hmem'
    have hin2 := htx2 t s hmem
    have hne : t2 ≠ [] := List.ne_nil_of_mem hin2
    rw [heq] at hmem'
    rcases List.mem_append.mp hmem' with h' | h'
    · exact h4 hne id s' h'
    · exact h3 id s' h'

/-- Witness for the C2 theorem: a one-destination command whose txsend
fails; since the broadcast stage was reached, the theorem yields that no
cancel was issued anywhere in the trace. -/
theorem mfc_done_before_txsend_witness :
    (Ev.cleanupCancel 5, (⟨[(1, StartState.done)], none⟩ : Snap)) ∉
      json_multifundchannel
        { connect := Except.ok [false],
          dryrun := Except.ok ⟨100, [(1, 5000)]⟩,
          fundchannel_start := fun _ => Except.ok 77,
          txdiscard_err := none,
          txprepare2 := Except.ok ⟨200, [77]⟩,
          fundchannel_complete := fun _ => Except.ok 88,
          txsend := Except.error 7 } 1000000 [⟨1, some 5000⟩] :=
  (mfc_done_before_txsend
    { connect := Except.ok [false],
      dryrun := Except.ok ⟨100, [(1, 5000)]⟩,
      fundchannel_start := fun _ => Except.ok 77,
      txdiscard_err := none,
      txprepare2 := Except.ok ⟨200, [77]⟩,
      fundchannel_complete := fun _ => Except.ok 88,
      txsend := Except.error 7 } 1000000 [⟨1, some 5000⟩]).2.2
    (some 200) ⟨[(1, StartState.done)], none⟩ (by decide) 5
    ⟨[(1, StartState.done)], none⟩

end Mfc
